import Mathlib

/-!
Verification of the RecokrOCRParser field-extraction and validation engine.

The Python sources (`normalizer.py`, `preprocessor.py`, `parser.py`,
`validator.py`, `schema.py`, `constants.py`, `pipeline.py`) are shallowly
embedded below.  Text is modelled as `List Char` / `String` (Python `str` is a
sequence of Unicode code points, as is Lean's `String`); Python `float` weights,
scores and thresholds are modelled as `ℚ` (every constant involved is exactly
representable and all arithmetic performed on them is exact at the scales the
program handles, so rational arithmetic is a faithful model of the float
computations); Python `None`-able values are `Option`; the regular expressions
of the source are compiled by hand into deterministic matchers (each pattern is
analysed below at its definition; the character classes involved are disjoint
from the literals that follow them, except for the bounded-repetition groups,
where the finitely many backtracking alternatives are tried in the engine's
greedy order).
-/

namespace Recokr

/-! ## Character classes (the classes used by the source's regexes) -/

/-- `[0-9]` (code points 48–57). -/
def isDig (c : Char) : Bool := 48 ≤ c.toNat ∧ c.toNat ≤ 57

/-- `[A-Z]`. -/
def isUpper (c : Char) : Bool := 65 ≤ c.toNat ∧ c.toNat ≤ 90

/-- The class `[0-9A-Za-z가-힣]` used by `compact_text`, `clean_vehicle_no` and
`_compact_with_index_map` (Hangul syllables are U+AC00 – U+D7A3). -/
def isAln (c : Char) : Bool :=
  isDig c ∨ isUpper c ∨ (97 ≤ c.toNat ∧ c.toNat ≤ 122) ∨
    (0xAC00 ≤ c.toNat ∧ c.toNat ≤ 0xD7A3)

/-- Python's `\s` over `str` (and `str.strip()`): ASCII whitespace plus the
Unicode whitespace code points.  The exotic members never interact with the
claims below; the set is listed once and used everywhere the source uses `\s`,
`.strip()` or `.lstrip()` of whitespace. -/
def isSpc (c : Char) : Bool :=
  c.toNat = 32 ∨ c.toNat = 9 ∨ c.toNat = 10 ∨ c.toNat = 13 ∨ c.toNat = 0xb ∨
  c.toNat = 0xc ∨ c.toNat = 0x1c ∨ c.toNat = 0x1d ∨ c.toNat = 0x1e ∨
  c.toNat = 0x1f ∨ c.toNat = 0x85 ∨ c.toNat = 0xa0 ∨ c.toNat = 0x1680 ∨
  (0x2000 ≤ c.toNat ∧ c.toNat ≤ 0x200a) ∨
  c.toNat = 0x2028 ∨ c.toNat = 0x2029 ∨ c.toNat = 0x202f ∨ c.toNat = 0x205f ∨
  c.toNat = 0x3000

/-- Digits of a captured group to the natural number `int(...)` / `float(...)`
parses (the captured groups are always pure digit runs once commas/spaces have
been removed). -/
def digitsToNat (l : List Char) : Nat :=
  l.foldl (fun a c => a * 10 + (c.toNat - '0'.toNat)) 0

/-! ## Normalizer (`normalizer.py`) -/

/-- Run-collapsing core of `normalize_spaces`: `re.sub(r"\s+", " ", text)`.
The flag records whether the previous character was whitespace. -/
def squeezeSpc : List Char → Bool → List Char
  | [], _ => []
  | c :: cs, prev =>
    if isSpc c then
      if prev then squeezeSpc cs true else ' ' :: squeezeSpc cs true
    else c :: squeezeSpc cs false

/-- Python `str.strip()`. -/
def pyStrip (l : List Char) : List Char :=
  ((l.dropWhile isSpc).reverse.dropWhile isSpc).reverse

/-- `normalize_spaces`: collapse every whitespace run to one space, then strip. -/
def normalizeSpaces (l : List Char) : List Char :=
  pyStrip (squeezeSpc l false)

/-- `compact_text`: keep only `[0-9A-Za-z가-힣]`. -/
def compactL (l : List Char) : List Char := l.filter isAln

def compactText (s : String) : String := ⟨compactL s.data⟩

/-- `label.replace(" ", "")`: Python removes exactly the ASCII space. -/
def dropSpaces (l : List Char) : List Char := l.filter (· ≠ ' ')

/-- Matcher for `build_label_regex(label)` = the label's space-stripped
characters joined by `\s*`, applied at the head of `text`.  Because `\s` never
matches a label character (labels hold no whitespace after `replace(" ", "")`),
each `\s*` is forced to consume the whole whitespace run, so the regex is
deterministic.  Returns the consumed length.  The first label character is
matched directly (no leading `\s*`). -/
def labelTail : List Char → List Char → Nat → Option Nat
  | [], _, acc => some acc
  | c :: rest, text, acc =>
    let sp := (text.takeWhile isSpc).length
    match text.drop sp with
    | [] => none
    | t :: ts => if t = c then labelTail rest ts (acc + sp + 1) else none

def labelMatchLen (lbl text : List Char) : Option Nat :=
  match lbl with
  | [] => some 0
  | c :: rest =>
    match text with
    | [] => none
    | t :: ts => if t = c then labelTail rest ts 1 else none

/-- `regex.search`: the leftmost position where the label pattern matches;
returns the `(start, end)` span. -/
def labelSearch (lbl : List Char) : List Char → Nat → Option (Nat × Nat)
  | text, pos =>
    match labelMatchLen lbl text with
    | some len => some (pos, pos + len)
    | none =>
      match text with
      | [] => none
      | _ :: ts => labelSearch lbl ts (pos + 1)

/-- `find_label_span`: earliest-starting exact match over the synonym list
(strictly earlier start replaces; the first synonym wins ties). -/
def findLabelSpan (text : List Char) (labels : List (List Char)) :
    Option (Nat × Nat) :=
  labels.foldl
    (fun best lbl =>
      match labelSearch (dropSpaces lbl) text 0 with
      | none => best
      | some sp =>
        match best with
        | none => some sp
        | some b => if sp.1 < b.1 then some sp else some b)
    none

/-- `_compact_with_index_map`: the compacted characters together with the map
from compacted index back to the original index. -/
def compactWithMap (l : List Char) : List Char × List Nat :=
  let pairs := l.enum.filter (fun p => isAln p.2)
  (pairs.map Prod.snd, pairs.map Prod.fst)

/-- Length of the longest common prefix. -/
def cpl : List Char → List Char → Nat
  | a :: as, b :: bs => if a = b then cpl as bs + 1 else 0
  | _, _ => 0

/-- `difflib.SequenceMatcher.find_longest_match` over the whole strings
(no junk: both arguments are far below the autojunk limit at every call site):
the longest common contiguous block, ties broken by earliest start in `a`,
then earliest start in `b`.  Returns `(i, j, size)`. -/
def longestMatch (a b : List Char) : Nat × Nat × Nat :=
  ((List.range a.length).flatMap
      (fun i => (List.range b.length).map (fun j => (i, j)))).foldl
    (fun best ij =>
      let k := cpl (a.drop ij.1) (b.drop ij.2)
      if best.2.2 < k then (ij.1, ij.2, k) else best)
    (0, 0, 0)

/-- Sum of the matching-block sizes found by the recursive
Ratcliff/Obershelp decomposition (`difflib.SequenceMatcher`'s `matches`),
driven by fuel for structural recursion; `matchTotal` supplies enough fuel. -/
def matchTotalF : Nat → List Char → List Char → Nat
  | 0, _, _ => 0
  | fuel + 1, a, b =>
    let m := longestMatch a b
    if m.2.2 = 0 then 0
    else
      matchTotalF fuel (a.take m.1) (b.take m.2.1) + m.2.2 +
        matchTotalF fuel (a.drop (m.1 + m.2.2)) (b.drop (m.2.1 + m.2.2))

def matchTotal (a b : List Char) : Nat :=
  matchTotalF (a.length + b.length + 1) a b

/-- `SequenceMatcher(None, a, b).ratio()` = `2·M / (len a + len b)`
(`1.0` when both are empty, per `_calculate_ratio`). -/
def simScore (a b : List Char) : ℚ :=
  if a.length + b.length = 0 then 1
  else (2 * matchTotal a b : ℚ) / (a.length + b.length : ℚ)

/-- `FuzzyMatchingThresholds` / `LABEL_FUZZY_THRESHOLD` from `constants.py`:
0.66 for compacted labels of length ≤ 3, 0.85 otherwise. -/
def fuzzyThreshold (labelLen : Nat) : ℚ :=
  if labelLen ≤ 3 then 33 / 50 else 17 / 20

/-- The window-scanning loop of `_fuzzy_label_span`: keeps the best strictly
improving score over windows whose first character equals the label's first
character. -/
def fuzzyLoop (clabel ctext : List Char) :
    List Nat → ℚ × Option Nat → ℚ × Option Nat
  | [], best => best
  | start :: rest, best =>
    let window := (ctext.drop start).take clabel.length
    if window.headD ' ' ≠ clabel.headD ' ' then fuzzyLoop clabel ctext rest best
    else
      let score := simScore clabel window
      if best.1 < score then fuzzyLoop clabel ctext rest (score, some start)
      else fuzzyLoop clabel ctext rest best

/-- `_fuzzy_label_span`. -/
def fuzzyLabelSpan (text lbl : List Char) : Option (Nat × Nat) :=
  let cm := compactWithMap text
  let ctext := cm.1
  let imap := cm.2
  let clabel := compactL lbl
  let L := clabel.length
  if L = 0 ∨ ctext.length < L then none
  else
    let best := fuzzyLoop clabel ctext (List.range (ctext.length - L + 1)) (0, none)
    match best.2 with
    | none => none
    | some bs =>
      if best.1 < fuzzyThreshold L then none
      else some (imap.getD bs 0, imap.getD (bs + L - 1) 0 + 1)

/-- `find_label_span_fuzzy`. -/
def findLabelSpanFuzzy (text : List Char) (labels : List (List Char)) :
    Option (Nat × Nat) :=
  labels.foldl
    (fun best lbl =>
      match fuzzyLabelSpan text lbl with
      | none => best
      | some sp =>
        match best with
        | none => some sp
        | some b => if sp.1 < b.1 then some sp else some b)
    none

/-- `strip_value_prefix`: `text.lstrip(" :：|-")`. -/
def stripValuePrefix (l : List Char) : List Char :=
  l.dropWhile (fun c => c = ' ' ∨ c = ':' ∨ c = '：' ∨ c = '|' ∨ c = '-')

/-- `clean_vehicle_no`: concatenation of all `[0-9A-Za-z가-힣]+` groups
(= the compaction), `None` when empty. -/
def cleanVehicleNo (l : List Char) : Option (List Char) :=
  let parts := compactL l
  if parts = [] then none else some parts

/-- `clean_item_name`: remove spaces, strip one trailing `구분`, `None` when
empty. -/
def cleanItemName (l : List Char) : Option (List Char) :=
  let compact := dropSpaces l
  let compact :=
    if compact.reverse.take 2 = ['분', '구'] then compact.dropLast.dropLast
    else compact
  if compact = [] then none else some compact

/-! ## Field extractors (`parser.py`): hand-compiled regex matchers

Every pattern below alternates bounded digit groups with separator classes
that are disjoint from digits, so greedy matching is deterministic except for
the `\d{1,2}` groups; there, the two-digit alternative is tried first and the
one-digit alternative can only succeed when the run of digits at that position
has length one (after one digit of a longer run, the continuation starts with
a digit where a non-digit literal or end-of-class is required).  Hence each
`\d{1,2}` group deterministically consumes the whole digit run when that run
has length 1 or 2 and fails otherwise, and `\d{n}` consumes exactly `n`
digits. -/

/-- Skip `\s*`: returns `(count, rest)`. -/
def skipSpc (l : List Char) : Nat × List Char :=
  ((l.takeWhile isSpc).length, l.dropWhile isSpc)

/-- `\d{1,2}` followed by a non-digit continuation: the digit run when its
length is 1 or 2.  Returns `(run, rest)`. -/
def dig12 (l : List Char) : Option (List Char × List Char) :=
  let run := l.takeWhile isDig
  if run.length = 1 ∨ run.length = 2 then some (run, l.drop run.length)
  else none

/-- `\d{n}` (nothing after it forbids further digits): exactly `n` digits. -/
def digN (n : Nat) (l : List Char) : Option (List Char × List Char) :=
  let run := l.take n
  if run.length = n ∧ run.all isDig then some (run, l.drop n) else none

/-- `_TIME_PATTERN` = `(\d{1,2})\s*:\s*(\d{2})(?:\s*:\s*(\d{2}))?` matched at
the head: returns `(consumed, hour-digits, minute-digits, second-digits?)`. -/
def colonTimeAt (l : List Char) : Option (Nat × List Char × List Char × Option (List Char)) := do
  let (h, r1) ← dig12 l
  let (s1, r2) := skipSpc r1
  let r3 ← if r2.headD ' ' = ':' then some r2.tail else none
  let (s2, r4) := skipSpc r3
  let (m, r5) ← digN 2 r4
  let base := h.length + s1 + 1 + s2 + 2
  -- optional seconds group, matched greedily and dropped on failure
  let (s3, r6) := skipSpc r5
  if r6.headD ' ' = ':' then
    let (s4, r7) := skipSpc r6.tail
    match digN 2 r7 with
    | some (sec, _) => some (base + s3 + 1 + s4 + 2, h, m, some sec)
    | none => some (base, h, m, none)
  else some (base, h, m, none)

/-- `_TIME_PAREN_PATTERN` = `\(?\s*(\d{1,2})\s*:\s*(\d{2})\s*\)?` at the head
(only the groups are used by the source).  The optional parentheses are
deterministic: skipping a present `(` leaves `(` where a digit is required. -/
def parenTimeAt (l : List Char) : Option (List Char × List Char) := do
  let l := if l.headD ' ' = '(' then l.tail else l
  let (_, r1) := skipSpc l
  let (h, r2) ← dig12 r1
  let (_, r3) := skipSpc r2
  let r4 ← if r3.headD ' ' = ':' then some r3.tail else none
  let (_, r5) := skipSpc r4
  let (m, _) ← digN 2 r5
  some (h, m)

/-- `_TIME_KOREAN_PATTERN` = `(\d{1,2})\s*시\s*(\d{1,2})\s*분` at the head. -/
def koreanTimeAt (l : List Char) : Option (Nat × List Char × List Char) := do
  let (h, r1) ← dig12 l
  let (s1, r2) := skipSpc r1
  let r3 ← if r2.headD ' ' = '시' then some r2.tail else none
  let (s2, r4) := skipSpc r3
  let (m, r5) ← dig12 r4
  let (s3, r6) := skipSpc r5
  let _ ← if r6.headD ' ' = '분' then some () else none
  some (h.length + s1 + 1 + s2 + m.length + s3 + 1, h, m)

/-- Generic `re.search`: try the head matcher at every position, leftmost
first. -/
def searchPos (m : List Char → Option α) : List Char → Option α
  | [] => m []
  | l@(_ :: ts) =>
    match m l with
    | some r => some r
    | none => searchPos m ts

/-- Zero-padding of `f"{n:02d}"` (the values are at most two digits). -/
def pad2 (n : Nat) : List Char :=
  if n < 10 then '0' :: (toString n).data else (toString n).data

/-- `extract_time`. -/
def extractTime (l : List Char) : Option (List Char) :=
  match searchPos colonTimeAt l with
  | some (_, h, m, sec) =>
    let hm := pad2 (digitsToNat h) ++ ':' :: pad2 (digitsToNat m)
    match sec with
    | some s => some (hm ++ ':' :: pad2 (digitsToNat s))
    | none => some hm
  | none =>
    match searchPos parenTimeAt l with
    | some (h, m) => some (pad2 (digitsToNat h) ++ ':' :: pad2 (digitsToNat m))
    | none =>
      match searchPos koreanTimeAt l with
      | some (_, h, m) => some (pad2 (digitsToNat h) ++ ':' :: pad2 (digitsToNat m))
      | none => none

/-! ### `strip_time_tokens` (`normalizer.py`) -/

/-- First substitution pattern `\(\s*\d{1,2}\s*:\s*\d{2}\s*\)`: consumed
length at the head. -/
def parenTimeTokenAt (l : List Char) : Option Nat := do
  let r0 ← if l.headD ' ' = '(' then some l.tail else none
  let (s0, r1) := skipSpc r0
  let (h, r2) ← dig12 r1
  let (s1, r3) := skipSpc r2
  let r4 ← if r3.headD ' ' = ':' then some r3.tail else none
  let (s2, r5) := skipSpc r4
  let (m, r6) ← digN 2 r5
  let (s3, r7) := skipSpc r6
  let _ ← if r7.headD ' ' = ')' then some () else none
  some (1 + s0 + h.length + s1 + 1 + s2 + m.length + s3 + 1)

/-- Length-only view of `colonTimeAt` (second substitution pattern). -/
def colonTimeTokenAt (l : List Char) : Option Nat :=
  (colonTimeAt l).map (·.1)

/-- Length-only view of `koreanTimeAt` (third substitution pattern). -/
def koreanTimeTokenAt (l : List Char) : Option Nat :=
  (koreanTimeAt l).map (·.1)

/-- `re.sub(pattern, " ", text)`: scan left to right, replace each
non-overlapping match by one space (none of the patterns can match the empty
string, so every reported match consumes at least one character). -/
def subAllF (m : List Char → Option Nat) : Nat → List Char → List Char
  | 0, l => l
  | _ + 1, [] => []
  | fuel + 1, c :: cs =>
    match m (c :: cs) with
    | some n =>
      if n = 0 then c :: subAllF m fuel cs
      else ' ' :: subAllF m fuel ((c :: cs).drop n)
    | none => c :: subAllF m fuel cs

def subAll (m : List Char → Option Nat) (l : List Char) : List Char :=
  subAllF m (l.length + 1) l

/-- `strip_time_tokens`: the three substitutions in source order. -/
def stripTimeTokens (l : List Char) : List Char :=
  subAll koreanTimeTokenAt (subAll colonTimeTokenAt (subAll parenTimeTokenAt l))

/-! ### Weights -/

/-- The class `[\d,\s]` of `_WEIGHT_PATTERN`'s group tail. -/
def isWeightGroupChar (c : Char) : Bool := isDig c ∨ c = ',' ∨ isSpc c

/-- Case-insensitive `k` / `g` (`re.IGNORECASE`; U+212A is the Kelvin sign,
which Unicode case-folds to `k`). -/
def isK (c : Char) : Bool := c = 'k' ∨ c = 'K' ∨ c.val = 0x212A
def isG (c : Char) : Bool := c = 'g' ∨ c = 'G'

/-- `_WEIGHT_PATTERN` = `(\d[\d,\s]*)\s*kg` at the head: the greedy group tail
backtracks one character at a time, so the alternatives are tried longest
first.  Returns `(group, consumed)`. -/
def weightMatchAt (l : List Char) : Option (List Char × Nat) :=
  match l with
  | [] => none
  | c :: cs =>
    if ¬ isDig c then none
    else
      let run := cs.takeWhile isWeightGroupChar
      (List.range (run.length + 1)).reverse.findSome? fun k =>
        let after := cs.drop k
        let (s, r) := skipSpc after
        match r with
        | a :: b :: _ =>
          if isK a ∧ isG b then some (c :: cs.take k, 1 + k + s + 2) else none
        | _ => none

/-- `extract_weight`: strip time tokens, search the weight pattern, clean the
group of `[,\s]` and parse as a (necessarily non-negative) number.  The
`float` conversion never fails: the cleaned group is a non-empty digit run. -/
def extractWeight (l : List Char) : Option ℚ :=
  match searchPos weightMatchAt (stripTimeTokens l) with
  | some (grp, _) => some ((digitsToNat (grp.filter isDig) : ℚ))
  | none => none

/-- The `findall` loop of `extract_all_weights`: non-overlapping matches left
to right, each parsed if its cleaned group `isdigit()` (always true). -/
def allWeightsF : Nat → List Char → List ℚ
  | 0, _ => []
  | _ + 1, [] => []
  | fuel + 1, l@(_ :: ts) =>
    match weightMatchAt l with
    | some (grp, n) =>
      let cleaned := grp.filter isDig
      if cleaned ≠ [] ∧ cleaned.all isDig then
        (digitsToNat cleaned : ℚ) :: allWeightsF fuel (l.drop n)
      else allWeightsF fuel (l.drop n)
    | none => allWeightsF fuel ts

/-- `extract_all_weights`. -/
def extractAllWeights (l : List Char) : List ℚ :=
  let sanitized := stripTimeTokens l
  allWeightsF (sanitized.length + 1) sanitized

/-! ### Dates, serials, GPS, timestamps -/

/-- `[-./\s]` separator class of `_DATE_PATTERN`. -/
def isDateSep (c : Char) : Bool := c = '-' ∨ c = '.' ∨ c = '/' ∨ isSpc c

/-- `_DATE_PATTERN` = `(\d{4})[-./\s]*(\d{2})[-./\s]*(\d{2})` at the head:
separators are disjoint from digits, so the match is deterministic.
Returns `(g1, g2, g3, consumed)`. -/
def dateMatchAt (l : List Char) : Option (List Char × List Char × List Char × Nat) := do
  let (y, r1) ← digN 4 l
  let sep1 := r1.takeWhile isDateSep
  let (mo, r2) ← digN 2 (r1.drop sep1.length)
  let sep2 := r2.takeWhile isDateSep
  let (d, r3) ← digN 2 (r2.drop sep2.length)
  let _ := r3
  some (y, mo, d, 4 + sep1.length + 2 + sep2.length + 2)

/-- Leftmost date match together with its end index. -/
def dateSearch : List Char → Nat → Option (List Char × List Char × List Char × Nat)
  | l, pos =>
    match dateMatchAt l with
    | some (y, mo, d, len) => some (y, mo, d, pos + len)
    | none =>
      match l with
      | [] => none
      | _ :: ts => dateSearch ts (pos + 1)

/-- The class `[-\s:]` of the serial pattern (`-` is 45, `:` is 58). -/
def isSerialSep (c : Char) : Bool := c.toNat = 45 ∨ isSpc c ∨ c.toNat = 58

/-- Serial pattern `[-\s:]*([0-9]{1,6})` at the head: the separator class is
disjoint from digits, so the run is consumed whole and the group takes the
first at most six digits of the following digit run (greedy `{1,6}`). -/
def serialMatchAt (l : List Char) : Option (List Char) :=
  let rest := l.dropWhile isSerialSep
  let run := rest.takeWhile isDig
  if run = [] then none else some (run.take 6)

/-- The first maximal digit run of a string (specification form used to
characterize the serial search). -/
def firstDigitRun (l : List Char) : List Char :=
  (l.dropWhile (fun c => ¬ isDig c)).takeWhile isDig

/-- `extract_date_serial`. -/
def extractDateSerial (l : List Char) : Option (List Char) × Option (List Char) :=
  match dateSearch l 0 with
  | some (y, mo, d, e) =>
    (some (y ++ '-' :: mo ++ '-' :: d), searchPos serialMatchAt (l.drop e))
  | none => (none, none)

/-- A signed decimal `[-+]?\d+\.\d+` at the head: `(value, rest)`.  The `\d+`
groups are maximal (a `.` or non-digit follows each). -/
def signedDecAt (l : List Char) : Option (ℚ × List Char) := do
  let (neg, l) :=
    if l.headD ' ' = '-' then (true, l.tail)
    else if l.headD ' ' = '+' then (false, l.tail) else (false, l)
  let intRun := l.takeWhile isDig
  let _ ← if intRun = [] then none else some ()
  let r1 := l.drop intRun.length
  let r2 ← if r1.headD ' ' = '.' then some r1.tail else none
  let fracRun := r2.takeWhile isDig
  let _ ← if fracRun = [] then none else some ()
  let mag : ℚ :=
    (digitsToNat intRun : ℚ) + (digitsToNat fracRun : ℚ) / ((10 : ℚ) ^ fracRun.length)
  some (if neg then -mag else mag, r2.drop fracRun.length)

structure Gps where
  lat : ℚ
  lng : ℚ
deriving DecidableEq, Repr

/-- The GPS pattern `([-+]?\d+\.\d+)\s*,\s*([-+]?\d+\.\d+)` at the head. -/
def gpsMatchAt (l : List Char) : Option (ℚ × ℚ) := do
  let (lat, r1) ← signedDecAt l
  let (_, r2) := skipSpc r1
  let r3 ← if r2.headD ' ' = ',' then some r2.tail else none
  let (_, r4) := skipSpc r3
  let (lng, _) ← signedDecAt r4
  some (lat, lng)

/-- `extract_gps`: search, then validate the latitude/longitude ranges. -/
def extractGps (l : List Char) : Option Gps :=
  match searchPos gpsMatchAt l with
  | none => none
  | some (lat, lng) =>
    if ¬(-90 ≤ lat ∧ lat ≤ 90 ∧ -180 ≤ lng ∧ lng ≤ 180) then none
    else some ⟨lat, lng⟩

/-- `_TIMESTAMP_PATTERN` =
`(\d{4})\s*-\s*(\d{2})\s*-\s*(\d{2})\s+(\d{2})\s*:\s*(\d{2})\s*:\s*(\d{2})`
at the head (the `\s+` must consume at least one character). -/
def timestampAt (l : List Char) : Option (List Char) := do
  let (y, r1) ← digN 4 l
  let (_, r2) := skipSpc r1
  let r3 ← if r2.headD ' ' = '-' then some r2.tail else none
  let (_, r4) := skipSpc r3
  let (mo, r5) ← digN 2 r4
  let (_, r6) := skipSpc r5
  let r7 ← if r6.headD ' ' = '-' then some r6.tail else none
  let (_, r8) := skipSpc r7
  let (d, r9) ← digN 2 r8
  let (sp, r10) := skipSpc r9
  let _ ← if sp = 0 then none else some ()
  let (h, r11) ← digN 2 r10
  let (_, r12) := skipSpc r11
  let r13 ← if r12.headD ' ' = ':' then some r12.tail else none
  let (_, r14) := skipSpc r13
  let (mi, r15) ← digN 2 r14
  let (_, r16) := skipSpc r15
  let r17 ← if r16.headD ' ' = ':' then some r16.tail else none
  let (_, r18) := skipSpc r17
  let (s, _) ← digN 2 r18
  some (y ++ '-' :: mo ++ '-' :: d ++ ' ' :: h ++ ':' :: mi ++ ':' :: s)

/-- `extract_timestamp`. -/
def extractTimestamp (l : List Char) : Option (List Char) :=
  searchPos timestampAt l

/-! ## Schema (`schema.py`) and warning machinery (`validator.py`) -/

inductive Severity
  | INFO
  | WARN
  | ERROR
deriving DecidableEq, Repr

/-- A context value (`Dict[str, Any]` values used by the program: strings,
ints, floats). -/
inductive CtxVal
  | s (v : String)
  | i (v : Int)
  | q (v : ℚ)
deriving DecidableEq, Repr

/-- A warning context: an insertion-ordered dict with string keys (keys are
unique at every call site). -/
abbrev Ctx := List (String × CtxVal)

def ctxGet (c : Ctx) (k : String) : Option CtxVal :=
  (c.find? (fun p => p.1 = k)).map Prod.snd

/-- `dict.setdefault`: append at the end iff the key is absent. -/
def ctxSetdefault (c : Ctx) (k : String) (v : CtxVal) : Ctx :=
  if (c.find? (fun p => p.1 = k)).isSome then c else c ++ [(k, v)]

structure Warning where
  code : String
  severity : Severity
  message : String
  context : Option Ctx
deriving DecidableEq, Repr

/-- Python code-point comparison of strings (`<` on `str`), used by
`sorted`. -/
def charsLt : List Char → List Char → Bool
  | [], [] => false
  | [], _ :: _ => true
  | _ :: _, [] => false
  | a :: as, b :: bs =>
    if a.val < b.val then true
    else if b.val < a.val then false
    else charsLt as bs

def strLt (a b : String) : Bool := charsLt a.data b.data

/-- Stable insertion sort of context items by key (`sorted(context.items())`;
keys are unique, so the tuple comparison never reaches the values). -/
def ctxInsert (p : String × CtxVal) : Ctx → Ctx
  | [] => [p]
  | x :: xs => if strLt x.1 p.1 then x :: ctxInsert p xs else p :: x :: xs

def ctxSorted : Ctx → Ctx
  | [] => []
  | p :: ps => ctxInsert p (ctxSorted ps)

/-- `_warning_key`. -/
def warningKey (w : Warning) : String × Option Ctx :=
  (w.code, w.context.map ctxSorted)

/-- `WARNING_CODE_MAP` (`constants.py`). -/
def warningCodeMap : List (String × String) :=
  [("input_json_fallback", "INP-FMT-001"),
   ("missing_pages_and_text", "INP-MISS-002"),
   ("noise_lines_removed", "PRE-CHK-001"),
   ("label_empty_value", "PRS-MISS-001"),
   ("gross_inferred_from_time_weight", "PRS-MAP-001"),
   ("tare_inferred_from_time_weight", "PRS-MAP-002"),
   ("net_inferred_from_gross_tare", "VAL-CHK-002"),
   ("net_mismatch", "VAL-CHK-001"),
   ("time_order_reversed", "VAL-CHK-003"),
   ("negative_weight", "VAL-CHK-004"),
   ("weight_exceeds_limit", "VAL-CHK-005")]

/-- `re.match(r"^[A-Z]{3}-[A-Z]{3}-\d{3}$", code)`: anchored at the start; the
`$` also accepts one trailing newline. -/
def isStdForm (code : String) : Bool :=
  match code.data with
  | [a, b, c, '-', d, e, f, '-', g, h, i] =>
    [a, b, c, d, e, f].all isUpper ∧ [g, h, i].all isDig
  | [a, b, c, '-', d, e, f, '-', g, h, i, '\n'] =>
    [a, b, c, d, e, f].all isUpper ∧ [g, h, i].all isDig
  | _ => false

/-- `_standardize_warning_code`. -/
def standardizeCode (code : String) : String :=
  if isStdForm code then code else (warningCodeMap.lookup code).getD code

/-- Rendering of a context value inside an f-string (`str(...)`).  Only the
string and int cases are ever reached by the source's message templates. -/
def renderCtxVal : CtxVal → String
  | .s v => v
  | .i v => toString v
  | .q v => toString v

/-- `_default_warning_info`. -/
def defaultWarningInfo (code : String) (context : Ctx) : Severity × String :=
  if code = "noise_lines_removed" then
    match ctxGet context "count" with
    | some cnt => (.INFO, "노이즈 라인 " ++ renderCtxVal cnt ++ "개 제거")
    | none => (.INFO, "노이즈 라인 제거")
  else if code = "input_json_fallback" then
    (.WARN, "입력 JSON 파싱 실패로 텍스트 기반 파싱 수행")
  else if code = "missing_pages_and_text" then
    (.ERROR, "입력에 pages/text가 없어 라인 추출 실패")
  else if code = "label_empty_value" then
    match ctxGet context "label" with
    | some lbl =>
      if lbl ≠ CtxVal.s "" then (.WARN, "라벨 값 누락: " ++ renderCtxVal lbl)
      else (.WARN, "라벨 값 누락")
    | none => (.WARN, "라벨 값 누락")
  else if code = "gross_inferred_from_time_weight" then
    (.WARN, "총중량을 시간/무게 패턴으로 추정")
  else if code = "tare_inferred_from_time_weight" then
    (.WARN, "공차중량을 시간/무게 패턴으로 추정")
  else if code = "net_inferred_from_gross_tare" then
    (.WARN, "실중량을 총/공차 차이로 계산")
  else if code = "net_mismatch" then
    (.ERROR, "총중량-공차중량과 실중량 불일치")
  else if code = "time_order_reversed" then
    match ctxGet context "time_in", ctxGet context "time_out" with
    | some ti, some to' =>
      if ti ≠ CtxVal.s "" ∧ to' ≠ CtxVal.s "" then
        (.WARN, "입차 시간이 출차 시간보다 늦음: " ++ renderCtxVal ti ++ ">" ++ renderCtxVal to')
      else (.WARN, "입차/출차 시간 순서 이상")
    | _, _ => (.WARN, "입차/출차 시간 순서 이상")
  else if code = "negative_weight" then
    (.ERROR, "음수 무게 감지: " ++ renderCtxVal ((ctxGet context "field").getD (.s "unknown")))
  else if code = "weight_exceeds_limit" then
    (.WARN, "무게 범위 초과: " ++ renderCtxVal ((ctxGet context "field").getD (.s "unknown")))
  else (.WARN, code)

/-- The candidate warning `add_warning` constructs before de-duplication:
context defaulting (`context or {}`), severity/message defaulting, code
standardization, `legacy_code` preservation, and the final `context or None`. -/
def mkCandidate (code : String) (context : Option Ctx) (severity : Option Severity)
    (message : Option String) : Warning :=
  let ctx := context.getD []
  let dflt := defaultWarningInfo code ctx
  let sev :=
    if severity.isNone ∨ message.isNone then severity.getD dflt.1
    else severity.getD .WARN
  let msg :=
    if severity.isNone ∨ message.isNone then
      match message with
      | some m => if m ≠ "" then m else dflt.2
      | none => dflt.2
    else message.getD ""
  let std := standardizeCode code
  let ctx2 := if std ≠ code then ctxSetdefault ctx "legacy_code" (.s code) else ctx
  { code := std, severity := sev, message := msg,
    context := if ctx2 = [] then none else some ctx2 }

/-- `add_warning`: append the candidate unless a warning with the same key is
already present. -/
def addWarning (ws : List Warning) (code : String) (context : Option Ctx)
    (severity : Option Severity) (message : Option String) :
    List Warning :=
  let w := mkCandidate code context severity message
  let k := warningKey w
  if ws.all (fun e => decide (warningKey e ≠ k)) then ws ++ [w] else ws

/-- Python truthiness of an optional context (`w.context and ...`). -/
def ctxTruthy : Option Ctx → Bool
  | none => false
  | some c => c ≠ []

/-- `has_warning`. -/
def hasWarning (ws : List Warning) (code : String) : Bool :=
  let std := standardizeCode code
  ws.any fun w =>
    w.code = std ∨
      (ctxTruthy w.context ∧
        ctxGet (w.context.getD []) "legacy_code" = some (.s code))

/-! ## ParsedRecord (`schema.py`) -/

structure Rec where
  doc_type : String := "unknown"
  weigh_date : Option String := none
  weigh_time_in : Option String := none
  weigh_time_out : Option String := none
  serial_no : Option String := none
  vehicle_no : Option String := none
  partner_name : Option String := none
  item_name : Option String := none
  direction : Option String := none
  gross_weight_kg : Option ℚ := none
  tare_weight_kg : Option ℚ := none
  net_weight_kg : Option ℚ := none
  deduction_weight_kg : Option ℚ := none
  issuer : Option String := none
  timestamp : Option String := none
  gps : Option Gps := none
  raw_text : String := ""
  parse_confidence : ℚ := 0
  warnings : List Warning := []
deriving DecidableEq, Repr

/-- Python truthiness of an `Optional[str]`. -/
def strTruthy : Option String → Bool
  | none => false
  | some s => s ≠ ""

/-- Python truthiness of an `Optional[float]`. -/
def qTruthy : Option ℚ → Bool
  | none => false
  | some v => v ≠ 0

/-- Python `a or b` on optional strings. -/
def pyOrStr (a b : Option String) : Option String :=
  if strTruthy a then a else b

/-! ## Validator / Finalizer (`validator.py`) -/

/-- `ValidationThresholds` and `ConfidenceWeights` (`constants.py`). -/
def NET_WEIGHT_TOLERANCE_KG : ℚ := 1
def MAX_WEIGHT_KG : ℚ := 100000
def MIN_WEIGHT_KG : ℚ := 0
def LABEL_INFERENCE : ℚ := 1 / 20
def FIELD_MISSING : ℚ := 1 / 20
def LOGIC_MISMATCH : ℚ := 1 / 10
def NET_CALC_INFERENCE : ℚ := 3 / 100

/-- One iteration of the `validate_weights` loop. -/
def weightChecks (fieldName : String) (value : Option ℚ) (ws : List Warning) :
    List Warning :=
  match value with
  | none => ws
  | some v =>
    let ws :=
      if v < MIN_WEIGHT_KG then
        addWarning ws "negative_weight" (some [("field", .s fieldName), ("value", .q v)])
          (some .ERROR) none
      else ws
    if MAX_WEIGHT_KG < v then
      addWarning ws "weight_exceeds_limit" (some [("field", .s fieldName), ("value", .q v)])
        (some .WARN) none
    else ws

/-- `validate_weights`. -/
def validateWeights (r : Rec) (ws : List Warning) : List Warning :=
  weightChecks "deduction_weight_kg" r.deduction_weight_kg
    (weightChecks "net_weight_kg" r.net_weight_kg
      (weightChecks "tare_weight_kg" r.tare_weight_kg
        (weightChecks "gross_weight_kg" r.gross_weight_kg ws)))

/-- `validate_time_order` (string comparison `in > out` is Python `>` on
`str`). -/
def validateTimeOrder (r : Rec) (ws : List Warning) : List Warning :=
  if strTruthy r.weigh_time_in ∧ strTruthy r.weigh_time_out then
    let ti := r.weigh_time_in.getD ""
    let to' := r.weigh_time_out.getD ""
    if strLt to' ti then
      addWarning ws "time_order_reversed"
        (some [("time_in", .s ti), ("time_out", .s to')]) none none
    else ws
  else ws

/-- The truthiness guard of the net-inference step: the Python test
`record.net_weight_kg is None and record.gross_weight_kg and
record.tare_weight_kg`. -/
def netInferCond (r : Rec) : Prop :=
  r.net_weight_kg.isNone = true ∧ qTruthy r.gross_weight_kg = true ∧
    qTruthy r.tare_weight_kg = true

instance (r : Rec) : Decidable (netInferCond r) := by
  unfold netInferCond
  infer_instance

/-- The record after the net-inference step of `finalize_record`. -/
def netInferred (r : Rec) : Rec :=
  if netInferCond r then
    { r with net_weight_kg := some (r.gross_weight_kg.getD 0 - r.tare_weight_kg.getD 0) }
  else r

/-- The warning list `finalize_record` has accumulated when it reaches the
confidence computation. -/
def finalWarnings (r : Rec) (ws : List Warning) : List Warning :=
  let ws := validateWeights r ws
  let ws := validateTimeOrder r ws
  let ws :=
    if netInferCond r then addWarning ws "net_inferred_from_gross_tare" none none none
    else ws
  let r2 := netInferred r
  match r2.gross_weight_kg, r2.tare_weight_kg, r2.net_weight_kg with
  | some g, some t, some n =>
    if NET_WEIGHT_TOLERANCE_KG < |g - t - n| then
      addWarning ws "net_mismatch" none none none
    else ws
  | _, _, _ => ws

/-- The confidence score of `finalize_record` before clamping (`r` carries the
final field values, `ws` the final warning list). -/
def confidenceOf (r : Rec) (ws : List Warning) : ℚ :=
  let confidence : ℚ := 1
  let confidence := if hasWarning ws "gross_inferred_from_time_weight" then
    confidence - LABEL_INFERENCE else confidence
  let confidence := if hasWarning ws "tare_inferred_from_time_weight" then
    confidence - LABEL_INFERENCE else confidence
  let confidence := if hasWarning ws "net_inferred_from_gross_tare" then
    confidence - NET_CALC_INFERENCE else confidence
  let confidence := if hasWarning ws "net_mismatch" then
    confidence - LOGIC_MISMATCH else confidence
  let confidence := if r.partner_name.isNone then confidence - FIELD_MISSING else confidence
  let confidence := if r.item_name.isNone then confidence - FIELD_MISSING else confidence
  let confidence := if r.timestamp.isNone then confidence - FIELD_MISSING else confidence
  confidence

/-- `finalize_record`. -/
def finalizeRecord (r : Rec) (ws : List Warning) : Rec :=
  let wsf := finalWarnings r ws
  let r := netInferred r
  let r := { r with warnings := wsf }
  { r with parse_confidence := max 0 (min 1 (confidenceOf r wsf)) }

/-! ## Configuration tables (`constants.py`) -/

def dateLabels : List String := ["계량일자", "일자", "일시", "날짜", "계량 일자"]
def serialLabels : List String :=
  ["일련번호", "계량횟수", "전표번호", "ID-NO", "IDNO", "ID NO"]
def vehicleLabels : List String :=
  ["차량번호", "차번호", "차량No", "차량NO", "차량 No", "차량 NO"]
def partnerLabels : List String := ["거래처", "상호", "수신처", "회사명", "회 사 명"]
def itemLabels : List String := ["품명", "제품명", "품 명", "제 품 명"]
def directionLabels : List String := ["구분", "구 분"]
def grossLabels : List String := ["총중량", "총 중량"]
def tareLabels : List String := ["공차중량", "차중량", "공 차 중 량", "차 중 량"]
def netLabels : List String := ["실중량", "실 중 량"]
def deductionLabels : List String := ["감량", "감 량"]

/-- `LABELS.values()` in dict (insertion) order. -/
def allLabelFamilies : List (List String) :=
  [dateLabels, serialLabels, vehicleLabels, partnerLabels, itemLabels,
   directionLabels, grossLabels, tareLabels, netLabels, deductionLabels]

def docTypes : List (String × List String) :=
  [("계량증명서", ["계량증명서", "계량 증명서"]),
   ("계량증명표", ["계량증명표", "계량 증명 표", "계량 증명표"]),
   ("계량표", ["계량표", "계 량 표", "계그표"]),
   ("계량확인서", ["계량확인서", "계량 확인서", "계 량 확 인 서"])]

def docTypePrefixMap : List (String × String) := [("계그표", "계량표")]

def DIRECTION_IN : String := "입고"
def DIRECTION_OUT : String := "출고"

def directionKeywords : List (String × List String) :=
  [(DIRECTION_IN, ["입고", "반입"]), (DIRECTION_OUT, ["출고", "반출"])]

def directionCompactMap : List (String × String) := [("출", DIRECTION_OUT)]

def salutationKeywords : List String := ["귀하"]

def noiseCompactTokens : List (List Char) := [[], "N".data, "없다".data]

def issuerCorpMarkers : List String := ["(주)"]
def issuerExcludeContains : List String := ["경기도"]
def issuerSkipContains : List String := ["계량하였음을", "증명"]

/-! ## Preprocessor (`preprocessor.py`) -/

structure LineInfo where
  raw : String
  cleaned : List Char
  compact : List Char
deriving DecidableEq, Repr

structure PreResult where
  raw_text : String
  line_infos : List LineInfo
  warnings : List Warning
deriving Repr

/-- A decoded input payload (the structured shape `extract_lines` consumes;
a line object without a `text` key behaves like an empty string). -/
structure Page where
  lines : List String := []
  text : Option String := none
deriving Repr, DecidableEq

structure Payload where
  pages : List Page := []
  text : Option String := none
deriving Repr, DecidableEq

def topText (p : Payload) : List String :=
  match p.text with
  | some t => if t ≠ "" then [t] else []
  | none => []

/-- `extract_lines`: page lines > page texts > top-level text > empty. -/
def extractLines (p : Payload) : List String :=
  if p.pages ≠ [] then
    let lines := p.pages.flatMap (fun pg => pg.lines.filter (· ≠ ""))
    if lines ≠ [] then lines
    else
      let ptexts := p.pages.filterMap fun pg =>
        match pg.text with
        | some t => if t ≠ "" then some t else none
        | none => none
      if ptexts ≠ [] then ptexts else topText p
  else topText p

/-- `is_noise_line`. -/
def isNoiseLine (text : List Char) : Bool :=
  pyStrip text = [] ∨ compactL text ∈ noiseCompactTokens

/-- `build_line_infos`. -/
def buildLineInfos (lines : List String) : List LineInfo :=
  lines.map fun l =>
    let cleaned := normalizeSpaces l.data
    ⟨l, cleaned, compactL cleaned⟩

/-- `preprocess_payload`. -/
def preprocessPayload (p : Payload) (initial : List Warning) : PreResult :=
  let warnings := initial
  let lines := extractLines p
  let rawText := String.intercalate "\n" lines
  let allInfos := buildLineInfos lines
  let lineInfos := allInfos.filter (fun i => ¬ isNoiseLine i.cleaned)
  let noiseCount := allInfos.length - lineInfos.length
  let warnings :=
    if lines = [] then addWarning warnings "missing_pages_and_text" none none none
    else warnings
  let warnings :=
    if 0 < noiseCount then
      addWarning warnings "noise_lines_removed" (some [("count", .i noiseCount)]) none none
    else warnings
  ⟨rawText, lineInfos, warnings⟩

/-! ## Record assembler (`parser.py`) -/

def asStr (l : List Char) : String := ⟨l⟩

/-- Python `needle in haystack` on strings. -/
def containsSub (n : List Char) : List Char → Bool
  | [] => n = []
  | c :: cs => n.isPrefixOf (c :: cs) || containsSub n cs

/-- Python `text.replace(pat, "")` (all non-overlapping occurrences, left to
right; every pattern used is non-empty). -/
def removeAllF (pat : List Char) : Nat → List Char → List Char
  | 0, l => l
  | _ + 1, [] => []
  | fuel + 1, c :: cs =>
    if pat ≠ [] ∧ pat.isPrefixOf (c :: cs) then
      removeAllF pat fuel ((c :: cs).drop pat.length)
    else c :: removeAllF pat fuel cs

def removeAll (pat l : List Char) : List Char := removeAllF pat (l.length + 1) l

/-- `detect_direction_from_text`. -/
def detectDirection (l : List Char) : Option String :=
  match directionKeywords.findSome? fun dk =>
    if dk.2.any (fun kw => containsSub kw.data l) then some dk.1 else none with
  | some d => some d
  | none => directionCompactMap.lookup (asStr (compactL l))

/-- `detect_doc_type`. -/
def detectDocType (lines : List LineInfo) : String :=
  match lines.findSome? fun line =>
      docTypes.findSome? fun dt =>
        if dt.2.any (fun v => containsSub (compactL v.data) line.compact) then some dt.1
        else none with
  | some d => d
  | none =>
    match lines.findSome? fun line =>
        docTypePrefixMap.findSome? fun pm =>
          if pm.1.data.isPrefixOf line.compact then some pm.2 else none with
    | some d => d
    | none => "unknown"

/-- `split_item_direction`. -/
def splitItemDirection (line : LineInfo) : Option (List Char) × Option (List Char) :=
  match findLabelSpan line.cleaned (itemLabels.map String.data),
      findLabelSpan line.cleaned (directionLabels.map String.data) with
  | some isp, some dsp =>
    if dsp.1 ≤ isp.2 then (none, none)
    else
      let iv := pyStrip (stripValuePrefix ((line.cleaned.drop isp.2).take (dsp.1 - isp.2)))
      let dv := pyStrip (stripValuePrefix (line.cleaned.drop dsp.2))
      ((if iv = [] then none else some iv), (if dv = [] then none else some dv))
  | _, _ => (none, none)

/-- `is_label_line`. -/
def isLabelLine (line : LineInfo) : Bool :=
  allLabelFamilies.any fun fam =>
    (findLabelSpan line.cleaned (fam.map String.data)).isSome

/-- `find_issuer`. -/
def findIssuer (lines : List LineInfo) : Option String :=
  match lines.findSome? fun line =>
      let cc := dropSpaces line.cleaned
      if issuerCorpMarkers.any (fun m => containsSub m.data cc) ∧
          ¬ issuerExcludeContains.any (fun t => containsSub t.data line.cleaned) then
        some (asStr cc)
      else none with
  | some v => some v
  | none =>
    lines.reverse.findSome? fun line =>
      if pyStrip line.cleaned = [] then none
      else if (extractTimestamp line.cleaned).isSome ∨ (extractGps line.cleaned).isSome then none
      else if issuerSkipContains.any (fun t => containsSub t.data line.cleaned) then none
      else if isLabelLine line then none
      else if 2 ≤ line.cleaned.length then some (asStr line.cleaned)
      else none

/-- `select_value_after_label`: exact tolerant-whitespace search over the
synonyms (earliest start, first synonym wins ties), fuzzy fallback, separator
stripping, and the `label_empty_value` warning for present-but-empty labels. -/
def selectValueAfterLabel (line : LineInfo) (labels : List String)
    (ws : List Warning) : Option (List Char) × List Warning :=
  let exact := labels.foldl
    (fun acc lbl =>
      match labelSearch (dropSpaces lbl.data) line.cleaned 0 with
      | some sp =>
        match acc with
        | none => some (sp, lbl)
        | some (b, _) => if sp.1 < b.1 then some (sp, lbl) else acc
      | none => acc)
    none
  let best :=
    match exact with
    | some b => some b
    | none =>
      labels.foldl
        (fun acc (lbl : String) =>
          match fuzzyLabelSpan line.cleaned lbl.data with
          | some sp =>
            match acc with
            | none => some (sp, lbl)
            | some (b, _) => if sp.1 < b.1 then some (sp, lbl) else acc
          | none => acc)
        none
  match best with
  | none => (none, ws)
  | some ((_, e), lbl) =>
    let value := stripValuePrefix (line.cleaned.drop e)
    if pyStrip value = [] then
      (none,
       addWarning ws "label_empty_value"
         (some [("label", .s (asStr (dropSpaces lbl.data)))]) none none)
    else (some (pyStrip value), ws)

/-- Assembly state: the record, the deferred `(time, weight, line-index)`
candidates, the `direction_source` flag and the shared warning list. -/
structure AState where
  record : Rec
  cands : List (List Char × ℚ × Nat)
  dirSource : String
  warnings : List Warning
deriving Repr

/-- Step 1: salutation keyword → partner name. -/
def stepSalute (line : LineInfo) (s : AState) : AState :=
  if ¬ strTruthy s.record.partner_name then
    match salutationKeywords.find? (fun kw => containsSub kw.data line.cleaned) with
    | some kw =>
      let pv := pyStrip (removeAll kw.data line.cleaned)
      if pv ≠ [] then
        { s with record := { s.record with partner_name := some (asStr (dropSpaces pv)) } }
      else s
    | none => s
  else s

/-- Step 2: date label family → date and same-line serial. -/
def stepDate (line : LineInfo) (s : AState) : AState :=
  let (dv, sv) :=
    if (findLabelSpan line.cleaned (dateLabels.map String.data)).isSome then
      extractDateSerial line.cleaned
    else (none, none)
  let s :=
    match dv with
    | some d =>
      if d ≠ [] then
        { s with record :=
            { s.record with weigh_date := pyOrStr s.record.weigh_date (some (asStr d)) } }
      else s
    | none => s
  match sv with
  | some v =>
    if v ≠ [] then
      { s with record :=
          { s.record with serial_no := pyOrStr s.record.serial_no (some (asStr v)) } }
    else s
  | none => s

/-- Step 3: serial label family (`re.search(r"\d{1,8}", ...)` is the first
digit run truncated to eight digits). -/
def stepSerial (line : LineInfo) (s : AState) : AState :=
  let (st, ws) := selectValueAfterLabel line serialLabels s.warnings
  let s := { s with warnings := ws }
  match st with
  | some t =>
    if t ≠ [] then
      if ¬ strTruthy s.record.serial_no then
        let cleaned := dropSpaces t
        let run := (cleaned.dropWhile (fun c => ¬ isDig c)).takeWhile isDig
        if run ≠ [] then
          { s with record := { s.record with serial_no := some (asStr (run.take 8)) } }
        else s
      else s
    else s
  | none => s

/-- Step 4: vehicle label family, with embedded direction-keyword stripping. -/
def stepVehicle (line : LineInfo) (s : AState) : AState :=
  let (vt, ws) := selectValueAfterLabel line vehicleLabels s.warnings
  let s := { s with warnings := ws }
  match vt with
  | some t =>
    if t ≠ [] then
      let (t, s) :=
        match detectDirection t with
        | some d =>
          let s :=
            { s with
              record := { s.record with direction := pyOrStr s.record.direction (some d) },
              dirSource := "weak" }
          let t := removeAll "반출".data (removeAll "출고".data
            (removeAll "반입".data (removeAll "입고".data t)))
          (pyStrip t, s)
        | none => (t, s)
      match cleanVehicleNo t with
      | some v =>
        { s with record :=
            { s.record with vehicle_no := pyOrStr s.record.vehicle_no (some (asStr v)) } }
      | none => s
    else s
  | none => s

/-- Step 5: partner label family. -/
def stepPartner (line : LineInfo) (s : AState) : AState :=
  let (pt, ws) := selectValueAfterLabel line partnerLabels s.warnings
  let s := { s with warnings := ws }
  match pt with
  | some t =>
    if t ≠ [] then
      { s with record :=
          { s.record with
            partner_name := pyOrStr s.record.partner_name (some (asStr (dropSpaces t))) } }
    else s
  | none => s

/-- Step 6: combined item + direction line. -/
def stepItemDir (line : LineInfo) (s : AState) : AState :=
  let (iv, dv) := splitItemDirection line
  let s :=
    match iv with
    | some v =>
      if v ≠ [] then
        if ¬ strTruthy s.record.item_name then
          { s with record := { s.record with item_name := (cleanItemName v).map asStr } }
        else s
      else s
    | none => s
  match dv with
  | some v =>
    if v ≠ [] then
      match detectDirection v with
      | some det =>
        { s with record := { s.record with direction := some det }, dirSource := "label" }
      | none => s
    else s
  | none => s

/-- Step 7: item label family alone. -/
def stepItem (line : LineInfo) (s : AState) : AState :=
  let (it, ws) := selectValueAfterLabel line itemLabels s.warnings
  let s := { s with warnings := ws }
  match it with
  | some t =>
    if t ≠ [] then
      if ¬ strTruthy s.record.item_name then
        { s with record := { s.record with item_name := (cleanItemName t).map asStr } }
      else s
    else s
  | none => s

/-- Step 8: direction label family alone. -/
def stepDir (line : LineInfo) (s : AState) : AState :=
  let (dt, ws) := selectValueAfterLabel line directionLabels s.warnings
  let s := { s with warnings := ws }
  match dt with
  | some t =>
    if t ≠ [] then
      match detectDirection t with
      | some det =>
        { s with record := { s.record with direction := some det }, dirSource := "label" }
      | none => s
    else s
  | none => s

/-- Step 9: whole-line direction fallback with the weak/none source policy. -/
def stepDirFallback (line : LineInfo) (s : AState) : AState :=
  if s.dirSource ≠ "label" then
    match detectDirection line.cleaned with
    | some det =>
      let rec' :=
        if s.dirSource = "weak" ∧ det = DIRECTION_OUT then
          { s.record with direction := some det }
        else if s.dirSource = "none" then { s.record with direction := some det }
        else s.record
      { s with record := rec', dirSource := "weak" }
    | none => s
  else s

/-- Step 10a: gross label family (weight and opportunistic weigh-in time). -/
def stepGross (line : LineInfo) (s : AState) : AState :=
  let (gt, ws) := selectValueAfterLabel line grossLabels s.warnings
  let s := { s with warnings := ws }
  match gt with
  | some t =>
    if t ≠ [] then
      let s :=
        match extractWeight t with
        | some w =>
          if s.record.gross_weight_kg = none then
            { s with record := { s.record with gross_weight_kg := some w } }
          else s
        | none => s
      match extractTime t with
      | some tv =>
        if s.record.weigh_time_in = none then
          { s with record := { s.record with weigh_time_in := some (asStr tv) } }
        else s
      | none => s
    else s
  | none => s

/-- Step 10b: tare label family (weight and opportunistic weigh-out time). -/
def stepTare (line : LineInfo) (s : AState) : AState :=
  let (tt, ws) := selectValueAfterLabel line tareLabels s.warnings
  let s := { s with warnings := ws }
  match tt with
  | some t =>
    if t ≠ [] then
      let s :=
        match extractWeight t with
        | some w =>
          if s.record.tare_weight_kg = none then
            { s with record := { s.record with tare_weight_kg := some w } }
          else s
        | none => s
      match extractTime t with
      | some tv =>
        if s.record.weigh_time_out = none then
          { s with record := { s.record with weigh_time_out := some (asStr tv) } }
        else s
      | none => s
    else s
  | none => s

/-- Step 10c: net label family. -/
def stepNet (line : LineInfo) (s : AState) : AState :=
  let (nt, ws) := selectValueAfterLabel line netLabels s.warnings
  let s := { s with warnings := ws }
  match nt with
  | some t =>
    if t ≠ [] then
      match extractWeight t with
      | some w =>
        if s.record.net_weight_kg = none then
          { s with record := { s.record with net_weight_kg := some w } }
        else s
      | none => s
    else s
  | none => s

/-- Step 10d: deduction label family. -/
def stepDeduction (line : LineInfo) (s : AState) : AState :=
  let (dt, ws) := selectValueAfterLabel line deductionLabels s.warnings
  let s := { s with warnings := ws }
  match dt with
  | some t =>
    if t ≠ [] then
      match extractWeight t with
      | some w =>
        if s.record.deduction_weight_kg = none then
          { s with record := { s.record with deduction_weight_kg := some w } }
        else s
      | none => s
    else s
  | none => s

/-- Step 11: deferred bare time/weight candidate on weight-label-free lines. -/
def stepCandidate (line : LineInfo) (idx : Nat) (s : AState) : AState :=
  if ¬ ((findLabelSpan line.cleaned (grossLabels.map String.data)).isSome ∨
        (findLabelSpan line.cleaned (tareLabels.map String.data)).isSome ∨
        (findLabelSpan line.cleaned (netLabels.map String.data)).isSome ∨
        (findLabelSpan line.cleaned (deductionLabels.map String.data)).isSome) then
    match extractWeight line.cleaned, extractTime line.cleaned with
    | some w, some tv =>
      if w ≠ 0 ∧ tv ≠ [] then { s with cands := s.cands ++ [(tv, w, idx)] } else s
    | _, _ => s
  else s

/-- Step 12: opportunistic timestamp and GPS. -/
def stepTsGps (line : LineInfo) (s : AState) : AState :=
  let s :=
    if ¬ strTruthy s.record.timestamp then
      match extractTimestamp line.cleaned with
      | some t => { s with record := { s.record with timestamp := some (asStr t) } }
      | none => s
    else s
  if s.record.gps = none then
    match extractGps line.cleaned with
    | some g => { s with record := { s.record with gps := some g } }
    | none => s
  else s

/-- One line of the assembly pass, steps in source order. -/
def processLine (s : AState) (line : LineInfo) (idx : Nat) : AState :=
  stepTsGps line (stepCandidate line idx (stepDeduction line (stepNet line
    (stepTare line (stepGross line (stepDirFallback line (stepDir line
      (stepItem line (stepItemDir line (stepPartner line (stepVehicle line
        (stepSerial line (stepDate line (stepSalute line s))))))))))))))

/-- The indexed forward pass over the filtered lines. -/
def assembleLines (s : AState) (i : Nat) : List LineInfo → AState
  | [] => s
  | l :: ls => assembleLines (processLine s l i) (i + 1) ls

/-- The deferred-candidate post-pass (`parser.py` lines 353–363). -/
def postPass (s : AState) : AState :=
  if s.cands ≠ [] then
    let s :=
      if ¬ qTruthy s.record.gross_weight_kg then
        match s.cands.head? with
        | some (tv, wv, _) =>
          { s with
            record := { s.record with
              gross_weight_kg := some wv,
              weigh_time_in := pyOrStr s.record.weigh_time_in (some (asStr tv)) },
            warnings := addWarning s.warnings "gross_inferred_from_time_weight" none none none }
        | none => s
      else s
    if 1 < s.cands.length then
      if ¬ qTruthy s.record.tare_weight_kg then
        match s.cands.get? 1 with
      | some (tv, wv, _) =>
        { s with
          record := { s.record with
            tare_weight_kg := some wv,
            weigh_time_out := pyOrStr s.record.weigh_time_out (some (asStr tv)) },
          warnings := addWarning s.warnings "tare_inferred_from_time_weight" none none none }
        | none => s
      else s
    else s
  else s

/-- The issuer resolution at the end of the pass. -/
def issuerStep (lines : List LineInfo) (s : AState) : AState :=
  { s with record :=
      { s.record with issuer := pyOrStr (findIssuer lines) s.record.issuer } }

/-- The assembler's initial state (`parse_preprocessed` lines 227–236). -/
def initAState (pre : PreResult) : AState :=
  { record := { raw_text := pre.raw_text, doc_type := detectDocType pre.line_infos },
    cands := [], dirSource := "none", warnings := pre.warnings }

/-- `parse_preprocessed`. -/
def parsePre (pre : PreResult) : Rec × List Warning :=
  let s := assembleLines (initAState pre) 0 pre.line_infos
  let s := postPass s
  let s := issuerStep pre.line_infos s
  (s.record, s.warnings)

/-- `pipeline.parse`: preprocess, assemble, finalize. -/
def parsePayload (p : Payload) : Rec :=
  let pre := preprocessPayload p []
  let rw := parsePre pre
  finalizeRecord rw.1 rw.2

/-! ## Helper lemmas about the warning machinery -/

theorem mkCandidate_code (c : String) (ctx : Option Ctx) (sv : Option Severity)
    (mg : Option String) : (mkCandidate c ctx sv mg).code = standardizeCode c := rfl

theorem mkCandidate_context (c : String) (ctx : Option Ctx) (sv : Option Severity)
    (mg : Option String) :
    (mkCandidate c ctx sv mg).context =
      (let ctx0 := ctx.getD []
       let ctx2 :=
         if standardizeCode c ≠ c then ctxSetdefault ctx0 "legacy_code" (.s c) else ctx0
       if ctx2 = [] then none else some ctx2) := rfl

theorem ctxGet_eq_none_iff (c : Ctx) (k : String) :
    ctxGet c k = none ↔ c.find? (fun p => p.1 = k) = none := by
  simp [ctxGet]

theorem ctxGet_append_single (c : Ctx) (k : String) (v : CtxVal)
    (h : ctxGet c k = none) : ctxGet (c ++ [(k, v)]) k = some v := by
  rw [ctxGet_eq_none_iff] at h
  simp [ctxGet, List.find?_append, h]

theorem ctxSetdefault_of_absent (c : Ctx) (k : String) (v : CtxVal)
    (h : ctxGet c k = none) : ctxSetdefault c k v = c ++ [(k, v)] := by
  rw [ctxGet_eq_none_iff] at h
  simp [ctxSetdefault, h]

theorem addWarning_pos (ws : List Warning) (c : String) (ctx : Option Ctx)
    (sv : Option Severity) (mg : Option String)
    (h : (ws.all fun e =>
        decide (warningKey e ≠ warningKey (mkCandidate c ctx sv mg))) = true) :
    addWarning ws c ctx sv mg = ws ++ [mkCandidate c ctx sv mg] := by
  simp only [addWarning, h, if_true]

theorem addWarning_neg (ws : List Warning) (c : String) (ctx : Option Ctx)
    (sv : Option Severity) (mg : Option String)
    (h : (ws.all fun e =>
        decide (warningKey e ≠ warningKey (mkCandidate c ctx sv mg))) = false) :
    addWarning ws c ctx sv mg = ws := by
  simp only [addWarning, h, Bool.false_eq_true, if_false]

theorem addWarning_eq_or (ws : List Warning) (c : String) (ctx : Option Ctx)
    (sv : Option Severity) (mg : Option String) :
    addWarning ws c ctx sv mg = ws ++ [mkCandidate c ctx sv mg] ∨
      addWarning ws c ctx sv mg = ws := by
  cases hb : (ws.all fun e =>
      decide (warningKey e ≠ warningKey (mkCandidate c ctx sv mg))) with
  | true => exact Or.inl (addWarning_pos ws c ctx sv mg hb)
  | false => exact Or.inr (addWarning_neg ws c ctx sv mg hb)

theorem addWarning_of_mem_key (ws : List Warning) (c : String) (ctx : Option Ctx)
    (sv : Option Severity) (mg : Option String)
    (h : ∃ w ∈ ws, warningKey w = warningKey (mkCandidate c ctx sv mg)) :
    addWarning ws c ctx sv mg = ws := by
  obtain ⟨w, hw, hk⟩ := h
  apply addWarning_neg
  simp only [List.all_eq_false]
  exact ⟨w, hw, by simp [hk]⟩

theorem addWarning_of_no_key (ws : List Warning) (c : String) (ctx : Option Ctx)
    (sv : Option Severity) (mg : Option String)
    (h : ∀ w ∈ ws, warningKey w ≠ warningKey (mkCandidate c ctx sv mg)) :
    addWarning ws c ctx sv mg = ws ++ [mkCandidate c ctx sv mg] := by
  apply addWarning_pos
  exact List.all_eq_true.mpr fun w hw => by
    simp only [decide_eq_true_eq]
    exact h w hw

theorem hasWarning_mono (ws : List Warning) (c c₂ : String) (ctx : Option Ctx)
    (sv : Option Severity) (mg : Option String) (h : hasWarning ws c = true) :
    hasWarning (addWarning ws c₂ ctx sv mg) c = true := by
  rcases addWarning_eq_or ws c₂ ctx sv mg with he | he <;> rw [he]
  · unfold hasWarning at h ⊢
    simp only [List.any_append, Bool.or_eq_true]
    exact Or.inl h
  · exact h

theorem hasWarning_addWarning_self (ws : List Warning) (c : String) (ctx : Option Ctx)
    (sv : Option Severity) (mg : Option String) :
    hasWarning (addWarning ws c ctx sv mg) c = true := by
  cases hb : (ws.all fun e =>
      decide (warningKey e ≠ warningKey (mkCandidate c ctx sv mg))) with
  | true =>
    rw [addWarning_pos ws c ctx sv mg hb]
    unfold hasWarning
    simp only [List.any_eq_true]
    refine ⟨mkCandidate c ctx sv mg, by simp, ?_⟩
    exact decide_eq_true (Or.inl (mkCandidate_code c ctx sv mg))
  | false =>
    rw [addWarning_neg ws c ctx sv mg hb]
    simp only [List.all_eq_false] at hb
    obtain ⟨w, hw, hdec⟩ := hb
    simp only [decide_eq_true_eq, Decidable.not_not, decide_eq_false_iff_not] at hdec
    unfold hasWarning
    simp only [List.any_eq_true]
    refine ⟨w, hw, ?_⟩
    have hcode : w.code = standardizeCode c := by
      have := congrArg Prod.fst hdec
      simpa [warningKey, mkCandidate_code] using this
    exact decide_eq_true (Or.inl hcode)

/-! ## Claim C6: warning de-duplication is idempotent -/

/-- C6: within one parse, adding a warning whose key (code, sorted context
items) equals the key of a warning already in the sequence is a no-op, and
issuing the same (code, context) pair twice yields exactly one warning with
that key in the output. -/
theorem c6_warning_dedup :
    (∀ (ws : List Warning) (c : String) (ctx : Option Ctx) (sv : Option Severity)
        (mg : Option String),
      (∃ w ∈ ws, warningKey w = warningKey (mkCandidate c ctx sv mg)) →
        addWarning ws c ctx sv mg = ws) ∧
    (∀ (ws : List Warning) (c : String) (ctx : Option Ctx) (sv : Option Severity)
        (mg : Option String),
      (ws.countP fun w =>
          decide (warningKey w = warningKey (mkCandidate c ctx sv mg))) = 0 →
        ((addWarning (addWarning ws c ctx sv mg) c ctx sv mg).countP fun w =>
          decide (warningKey w = warningKey (mkCandidate c ctx sv mg))) = 1) := by
  constructor
  · exact addWarning_of_mem_key
  · intro ws c ctx sv mg h0
    have hnone : ∀ w ∈ ws, warningKey w ≠ warningKey (mkCandidate c ctx sv mg) := by
      intro w hw hk
      have := List.countP_eq_zero.mp h0 w hw
      simp [hk] at this
    have h1 := addWarning_of_no_key ws c ctx sv mg hnone
    rw [h1]
    have h2 : addWarning (ws ++ [mkCandidate c ctx sv mg]) c ctx sv mg =
        ws ++ [mkCandidate c ctx sv mg] := by
      apply addWarning_of_mem_key
      exact ⟨mkCandidate c ctx sv mg, by simp, rfl⟩
    rw [h2, List.countP_append]
    have hws0 : (ws.countP fun w =>
        decide (warningKey w = warningKey (mkCandidate c ctx sv mg))) = 0 := h0
    rw [hws0]
    simp

/-- Witness for C6 at a concrete warning. -/
theorem c6_warning_dedup_witness :
    (addWarning [mkCandidate "net_mismatch" none none none] "net_mismatch" none none none =
      [mkCandidate "net_mismatch" none none none]) ∧
    ((addWarning (addWarning [] "net_mismatch" none none none) "net_mismatch"
        none none none).countP (fun w =>
          decide (warningKey w = warningKey (mkCandidate "net_mismatch" none none none))) = 1) :=
  ⟨c6_warning_dedup.1 _ _ _ _ _ ⟨mkCandidate "net_mismatch" none none none, by simp, rfl⟩,
   c6_warning_dedup.2 [] _ _ _ _ rfl⟩

/-! ## Claim C8: warning-code standardization -/

theorem mkCandidate_mapped (c std : String) (hstd : standardizeCode c = std)
    (hne : std ≠ c) (ctx : Ctx) (sv : Option Severity) (mg : Option String)
    (hctx : ctxGet ctx "legacy_code" = none) :
    (mkCandidate c (some ctx) sv mg).code = std ∧
      ctxGet ((mkCandidate c (some ctx) sv mg).context.getD []) "legacy_code" =
        some (.s c) := by
  constructor
  · rw [mkCandidate_code, hstd]
  · rw [mkCandidate_context]
    dsimp only [Option.getD_some]
    rw [if_pos (hstd ▸ hne : standardizeCode c ≠ c)]
    rw [ctxSetdefault_of_absent ctx "legacy_code" (.s c) hctx]
    rw [if_neg (by simp : ¬ ctx ++ [("legacy_code", CtxVal.s c)] = [])]
    exact ctxGet_append_single ctx "legacy_code" (.s c) hctx

theorem mkCandidate_passthrough (c : String) (ctx : Option Ctx) (sv : Option Severity)
    (mg : Option String) (h : standardizeCode c = c) :
    (mkCandidate c ctx sv mg).code = c ∧
      (mkCandidate c ctx sv mg).context.getD [] = ctx.getD [] := by
  refine ⟨by rw [mkCandidate_code, h], ?_⟩
  rw [mkCandidate_context]
  dsimp only
  rw [if_neg (by simp [h] : ¬ standardizeCode c ≠ c)]
  by_cases hc : ctx.getD [] = [] <;> simp [hc]

/-- C8 (amended): a warning created with a short code that has an entry in the
standardization table is stored with the table's code (the table's values are
close to but not always exactly of the `AAA-BBB-NNN` shape) and the original
short code is preserved under `context.legacy_code`; a code already matching
the `AAA-BBB-NNN` pattern passes through unchanged with its context untouched;
an unknown code passes through unchanged with its context untouched — in
particular no `legacy_code` entry is added for it. -/
theorem c8_code_standardization :
    (∀ p ∈ warningCodeMap, ∀ (ctx : Ctx) (sv : Option Severity) (mg : Option String),
      ctxGet ctx "legacy_code" = none →
        (mkCandidate p.1 (some ctx) sv mg).code = p.2 ∧
        ctxGet ((mkCandidate p.1 (some ctx) sv mg).context.getD []) "legacy_code" =
          some (.s p.1)) ∧
    (∀ (c : String) (ctx : Option Ctx) (sv : Option Severity) (mg : Option String),
      isStdForm c = true →
        (mkCandidate c ctx sv mg).code = c ∧
        (mkCandidate c ctx sv mg).context.getD [] = ctx.getD []) ∧
    (∀ (c : String) (ctx : Option Ctx) (sv : Option Severity) (mg : Option String),
      isStdForm c = false → warningCodeMap.lookup c = none →
        (mkCandidate c ctx sv mg).code = c ∧
        (mkCandidate c ctx sv mg).context.getD [] = ctx.getD []) := by
  refine ⟨?_, ?_, ?_⟩
  · intro p hp ctx sv mg hctx
    fin_cases hp <;>
      exact mkCandidate_mapped _ _ (by decide) (by decide) ctx sv mg hctx
  · intro c ctx sv mg h
    exact mkCandidate_passthrough c ctx sv mg (by simp [standardizeCode, h])
  · intro c ctx sv mg h1 h2
    exact mkCandidate_passthrough c ctx sv mg
      (by simp [standardizeCode, h1, h2])

/-- C8 counterexample: an unknown short code (`"mystery_code"`, neither in the
table nor of the standardized shape) is stored verbatim with an EMPTY context:
no `legacy_code` entry records the original, contrary to the claim. -/
theorem c8_counterexample :
    addWarning [] "mystery_code" none none none =
      [{ code := "mystery_code", severity := .WARN, message := "mystery_code",
         context := none }] := by
  decide

/-- Witness for C8 at concrete inputs. -/
theorem c8_code_standardization_witness :
    ((mkCandidate "net_mismatch" (some [("k", .s "v")]) none none).code = "VAL-CHK-001" ∧
      ctxGet ((mkCandidate "net_mismatch" (some [("k", .s "v")]) none none).context.getD [])
        "legacy_code" = some (.s "net_mismatch")) ∧
    ((mkCandidate "VAL-CHK-001" none none none).code = "VAL-CHK-001" ∧
      (mkCandidate "VAL-CHK-001" none none none).context.getD [] = ([] : Ctx)) ∧
    ((mkCandidate "mystery_code" none none none).code = "mystery_code" ∧
      (mkCandidate "mystery_code" none none none).context.getD [] = ([] : Ctx)) := by
  refine ⟨?_, ?_, ?_⟩
  · exact c8_code_standardization.1 ("net_mismatch", "VAL-CHK-001") (by decide)
      [("k", .s "v")] none none (by decide)
  · exact (c8_code_standardization.2.1 "VAL-CHK-001" none none none (by decide)).imp
      id (fun h => by simpa using h)
  · exact (c8_code_standardization.2.2 "mystery_code" none none none (by decide)
      (by decide)).imp id (fun h => by simpa using h)

/-! ## Claim C1: net-weight law of the finalizer -/

@[simp] theorem qTruthy_none : qTruthy none = false := rfl
@[simp] theorem qTruthy_some (v : ℚ) : qTruthy (some v) = decide (v ≠ 0) := rfl
@[simp] theorem strTruthy_none : strTruthy none = false := rfl
@[simp] theorem strTruthy_some (s : String) : strTruthy (some s) = decide (s ≠ "") := rfl

/-- C1 (amended): if `net_weight_kg` is unset and both `gross_weight_kg` and
`tare_weight_kg` are set *to non-zero values* (the code's guard is Python
truthiness, so a weight of exactly 0 blocks the inference), the finalizer sets
`net = gross − tare` exactly and records the `net_inferred_from_gross_tare`
warning; and if all three are set and `|gross − tare − net| > 1.0`, the
`net_mismatch` warning is recorded. -/
theorem c1_net_weight_law :
    (∀ (r : Rec) (ws : List Warning) (g t : ℚ),
      r.net_weight_kg = none → r.gross_weight_kg = some g → g ≠ 0 →
      r.tare_weight_kg = some t → t ≠ 0 →
        (finalizeRecord r ws).net_weight_kg = some (g - t) ∧
        hasWarning (finalizeRecord r ws).warnings "net_inferred_from_gross_tare" = true) ∧
    (∀ (r : Rec) (ws : List Warning) (g t n : ℚ),
      r.gross_weight_kg = some g → r.tare_weight_kg = some t → r.net_weight_kg = some n →
      1 < |g - t - n| →
        hasWarning (finalizeRecord r ws).warnings "net_mismatch" = true) := by
  constructor
  · intro r ws g t hn hg hgne ht htne
    have hc : netInferCond r := by
      unfold netInferCond
      rw [hn, hg, ht]
      simp [hgne, htne]
    have hni : netInferred r = { r with net_weight_kg := some (g - t) } := by
      unfold netInferred
      rw [if_pos hc, hg, ht]
      simp
    refine ⟨?_, ?_⟩
    · show (netInferred r).net_weight_kg = some (g - t)
      rw [hni]
    · show hasWarning (finalWarnings r ws) "net_inferred_from_gross_tare" = true
      simp only [finalWarnings]
      rw [if_pos hc, hni]
      dsimp only
      rw [hg, ht]
      dsimp only
      rw [show g - t - (g - t) = 0 by ring, abs_zero,
        if_neg (by norm_num [NET_WEIGHT_TOLERANCE_KG])]
      exact hasWarning_addWarning_self _ _ _ _ _
  · intro r ws g t n hg ht hn habs
    have hc : ¬ netInferCond r := by
      unfold netInferCond
      rw [hn]
      simp
    have hni : netInferred r = r := by
      unfold netInferred
      rw [if_neg hc]
    show hasWarning (finalWarnings r ws) "net_mismatch" = true
    simp only [finalWarnings]
    rw [if_neg hc, hni, hg, ht, hn]
    dsimp only
    rw [if_pos (show NET_WEIGHT_TOLERANCE_KG < |g - t - n| by
      simpa [NET_WEIGHT_TOLERANCE_KG] using habs)]
    exact hasWarning_addWarning_self _ _ _ _ _

/-- C1 counterexample: with `gross = 0` (set!), `tare = 5` and `net` unset, the
finalizer leaves `net` unset and records no inference warning, although the
claim requires `net = gross − tare = −5` with the warning. -/
theorem c1_counterexample :
    (finalizeRecord { gross_weight_kg := some 0, tare_weight_kg := some 5 } []).net_weight_kg
        = none ∧
    hasWarning
        (finalizeRecord { gross_weight_kg := some 0, tare_weight_kg := some 5 } []).warnings
        "net_inferred_from_gross_tare" = false := by
  decide

/-- Witness for C1 at concrete inputs. -/
theorem c1_net_weight_law_witness :
    ((finalizeRecord { gross_weight_kg := some 10, tare_weight_kg := some 4 } []).net_weight_kg
        = some 6 ∧
      hasWarning
        (finalizeRecord { gross_weight_kg := some 10, tare_weight_kg := some 4 } []).warnings
        "net_inferred_from_gross_tare" = true) ∧
    hasWarning
        (finalizeRecord
          { gross_weight_kg := some 10, tare_weight_kg := some 4, net_weight_kg := some 2 }
          []).warnings "net_mismatch" = true := by
  constructor
  · obtain ⟨h1, h2⟩ := c1_net_weight_law.1
      { gross_weight_kg := some 10, tare_weight_kg := some 4 } [] 10 4
      rfl rfl (by norm_num) rfl (by norm_num)
    exact ⟨by rw [h1]; norm_num, h2⟩
  · exact c1_net_weight_law.2
      { gross_weight_kg := some 10, tare_weight_kg := some 4, net_weight_kg := some 2 }
      [] 10 4 2 rfl rfl rfl (by norm_num)

/-! ## Claim C4: confidence bounds -/

theorem finalizeRecord_warnings (r : Rec) (ws : List Warning) :
    (finalizeRecord r ws).warnings = finalWarnings r ws := rfl

theorem finalizeRecord_conf (r : Rec) (ws : List Warning) :
    (finalizeRecord r ws).parse_confidence =
      max 0 (min 1 (confidenceOf { netInferred r with warnings := finalWarnings r ws }
        (finalWarnings r ws))) := rfl

theorem netInferred_partner (r : Rec) : (netInferred r).partner_name = r.partner_name := by
  unfold netInferred
  split <;> rfl

theorem netInferred_item (r : Rec) : (netInferred r).item_name = r.item_name := by
  unfold netInferred
  split <;> rfl

theorem netInferred_timestamp (r : Rec) : (netInferred r).timestamp = r.timestamp := by
  unfold netInferred
  split <;> rfl

theorem finalizeRecord_partner (r : Rec) (ws : List Warning) :
    (finalizeRecord r ws).partner_name = r.partner_name := netInferred_partner r

theorem finalizeRecord_item (r : Rec) (ws : List Warning) :
    (finalizeRecord r ws).item_name = r.item_name := netInferred_item r

theorem finalizeRecord_timestamp (r : Rec) (ws : List Warning) :
    (finalizeRecord r ws).timestamp = r.timestamp := netInferred_timestamp r

/-- C4: every finalized record's `parse_confidence` lies in `[0, 1]`, and a
finalized record whose `partner_name`, `item_name` and `timestamp` are all set
and whose final warning list contains none of the gross-inferred,
tare-inferred, net-inferred or net-mismatch warnings has confidence exactly
`1.0`. -/
theorem c4_confidence_bounds :
    (∀ p : Payload, 0 ≤ (parsePayload p).parse_confidence ∧
      (parsePayload p).parse_confidence ≤ 1) ∧
    (∀ (r : Rec) (ws : List Warning),
      (finalizeRecord r ws).partner_name ≠ none →
      (finalizeRecord r ws).item_name ≠ none →
      (finalizeRecord r ws).timestamp ≠ none →
      hasWarning (finalizeRecord r ws).warnings "gross_inferred_from_time_weight" = false →
      hasWarning (finalizeRecord r ws).warnings "tare_inferred_from_time_weight" = false →
      hasWarning (finalizeRecord r ws).warnings "net_inferred_from_gross_tare" = false →
      hasWarning (finalizeRecord r ws).warnings "net_mismatch" = false →
      (finalizeRecord r ws).parse_confidence = 1) := by
  have hbounds : ∀ (r : Rec) (ws : List Warning),
      0 ≤ (finalizeRecord r ws).parse_confidence ∧
        (finalizeRecord r ws).parse_confidence ≤ 1 := by
    intro r ws
    rw [finalizeRecord_conf]
    constructor
    · exact le_max_left 0 _
    · exact max_le (by norm_num) (min_le_left 1 _)
  constructor
  · intro p
    exact hbounds _ _
  · intro r ws hp hi ht h1 h2 h3 h4
    rw [finalizeRecord_partner] at hp
    rw [finalizeRecord_item] at hi
    rw [finalizeRecord_timestamp] at ht
    rw [finalizeRecord_warnings] at h1 h2 h3 h4
    rw [finalizeRecord_conf]
    have hconf : confidenceOf { netInferred r with warnings := finalWarnings r ws }
        (finalWarnings r ws) = 1 := by
      unfold confidenceOf
      rw [h1, h2, h3, h4]
      dsimp only
      rw [netInferred_partner, netInferred_item, netInferred_timestamp]
      rw [if_neg (by simp [Option.isNone_iff_eq_none, hp] : ¬ r.partner_name.isNone = true),
        if_neg (by simp [Option.isNone_iff_eq_none, hi] : ¬ r.item_name.isNone = true),
        if_neg (by simp [Option.isNone_iff_eq_none, ht] : ¬ r.timestamp.isNone = true)]
      simp
    rw [hconf]
    norm_num

/-- Witness for C4 at a concrete record. -/
theorem c4_confidence_bounds_witness :
    0 ≤ (parsePayload { text := some "abc" }).parse_confidence ∧
    (parsePayload { text := some "abc" }).parse_confidence ≤ 1 ∧
    (finalizeRecord
      { partner_name := some "p", item_name := some "i", timestamp := some "t" }
      []).parse_confidence = 1 := by
  refine ⟨(c4_confidence_bounds.1 { text := some "abc" }).1,
    (c4_confidence_bounds.1 { text := some "abc" }).2,
    c4_confidence_bounds.2
      { partner_name := some "p", item_name := some "i", timestamp := some "t" } []
      ?_ ?_ ?_ ?_ ?_ ?_ ?_⟩ <;> decide

/-! ## Claim C7: serial extraction on a date line -/

theorem not_serialSep_of_dig (c : Char) (h : isDig c = true) : isSerialSep c = false := by
  unfold isDig at h
  unfold isSerialSep isSpc
  simp only [decide_eq_true_eq] at h
  simp only [decide_eq_false_iff_not, decide_eq_true_eq]
  push_neg
  omega

theorem searchPos_cons {α : Type} (m : List Char → Option α) (c : Char) (cs : List Char) :
    searchPos m (c :: cs) =
      match m (c :: cs) with
      | some r => some r
      | none => searchPos m cs := rfl

theorem searchPos_of_match {α : Type} (m : List Char → Option α) (l : List Char) (v : α)
    (h : m l = some v) : searchPos m l = some v := by
  cases l with
  | nil => simpa [searchPos] using h
  | cons c cs => rw [searchPos_cons, h]

/-- The serial regex search over a tail equals: nothing when the tail holds no
digit, else the tail's first digit run truncated to six digits. -/
theorem serialSearch_eq (t : List Char) :
    searchPos serialMatchAt t =
      (if firstDigitRun t = [] then none else some ((firstDigitRun t).take 6)) := by
  induction t with
  | nil => rfl
  | cons c cs ih =>
    by_cases hd : isDig c = true
    · have hsep : isSerialSep c = false := not_serialSep_of_dig c hd
      have hmatch : serialMatchAt (c :: cs) = some (((c :: cs).takeWhile isDig).take 6) := by
        unfold serialMatchAt
        simp only [List.dropWhile_cons, hsep, Bool.false_eq_true, if_false,
          List.takeWhile_cons, hd, if_true]
        rw [if_neg (by simp)]
      have hfdr : firstDigitRun (c :: cs) = (c :: cs).takeWhile isDig := by
        unfold firstDigitRun
        rw [List.dropWhile_cons, if_neg (by simp [hd])]
      rw [searchPos_cons, hmatch]
      dsimp only
      rw [hfdr, if_neg (by simp [hd])]
    · have hfdr : firstDigitRun (c :: cs) = firstDigitRun cs := by
        unfold firstDigitRun
        rw [List.dropWhile_cons, if_pos (by simp [hd])]
      by_cases hsp : isSerialSep c = true
      · have hmm : serialMatchAt (c :: cs) = serialMatchAt cs := by
          unfold serialMatchAt
          rw [List.dropWhile_cons, if_pos hsp]
        rw [searchPos_cons, hmm, hfdr]
        cases hsm : serialMatchAt cs with
        | some v =>
          dsimp only
          rw [← ih, searchPos_of_match serialMatchAt cs v hsm]
        | none =>
          dsimp only
          rw [ih]
      · have hmm : serialMatchAt (c :: cs) = none := by
          simp [serialMatchAt, List.dropWhile_cons, List.takeWhile_cons, hsp, hd]
        rw [searchPos_cons, hmm]
        dsimp only
        rw [ih, hfdr]

/-- C7 (amended): on a line where the 4-2-2 date pattern matches,
`extract_date_serial` returns a serial whenever the remainder after the date
contains ANY digit — the `[-\s:]*` separator prefix of the serial pattern is
optional, so no preceding `-`/whitespace/`:` is required; the serial returned
is the first digit run of the remainder, truncated to at most six digits. -/
theorem c7_serial_extraction (l y mo d : List Char) (e : Nat)
    (h : dateSearch l 0 = some (y, mo, d, e)) :
    (extractDateSerial l).2 =
      (if firstDigitRun (l.drop e) = [] then none
       else some ((firstDigitRun (l.drop e)).take 6)) := by
  unfold extractDateSerial
  rw [h]
  dsimp only
  exact serialSearch_eq (l.drop e)

/-- C7 counterexample: in `"2026-01-02abc7"` the remainder after the date is
`"abc7"`, whose only digit token `7` is preceded by the letter `c` — not by
`-`, whitespace or `:` — yet a serial `"7"` is returned, refuting the "only
when … preceded by" condition of the claim. -/
theorem c7_counterexample :
    extractDateSerial "2026-01-02abc7".data =
      (some "2026-01-02".data, some ['7']) := by
  decide

/-- Witness for C7 at a concrete date line. -/
theorem c7_serial_extraction_witness :
    (extractDateSerial "2026-01-02 - 12345678".data).2 = some "123456".data :=
  (c7_serial_extraction "2026-01-02 - 12345678".data
    "2026".data "01".data "02".data 10 (by decide)).trans (by decide)

/-! ## Claim C9: fuzzy label matching threshold -/

/-- The window at `s` qualifies: its first character matches the label's and
its similarity meets the threshold. -/
def windowQualifies (cl ct : List Char) (θ : ℚ) (s : Nat) : Prop :=
  ((ct.drop s).take cl.length).headD ' ' = cl.headD ' ' ∧
    θ ≤ simScore cl ((ct.drop s).take cl.length)

theorem fuzzyLoop_fst_iff (cl ct : List Char) (θ : ℚ) (starts : List Nat)
    (b : ℚ) (st : Option Nat) :
    (θ ≤ (fuzzyLoop cl ct starts (b, st)).1 ↔
      θ ≤ b ∨ ∃ s ∈ starts, windowQualifies cl ct θ s) := by
  induction starts generalizing b st with
  | nil => simp [fuzzyLoop]
  | cons s rest ih =>
    unfold fuzzyLoop
    by_cases hok : ((ct.drop s).take cl.length).headD ' ' = cl.headD ' '
    · rw [if_neg (not_not_intro hok)]
      dsimp only
      by_cases hlt : b < simScore cl ((ct.drop s).take cl.length)
      · rw [if_pos hlt, ih]
        constructor
        · rintro (hs | ⟨x, hx, hq⟩)
          · exact Or.inr ⟨s, List.mem_cons_self s rest, hok, hs⟩
          · exact Or.inr ⟨x, List.mem_cons_of_mem s hx, hq⟩
        · rintro (hb | ⟨x, hx, hq⟩)
          · exact Or.inl (lt_of_le_of_lt hb hlt).le
          · rcases List.mem_cons.mp hx with rfl | hx2
            · exact Or.inl hq.2
            · exact Or.inr ⟨x, hx2, hq⟩
      · rw [if_neg hlt, ih]
        push_neg at hlt
        constructor
        · rintro (hb | ⟨x, hx, hq⟩)
          · exact Or.inl hb
          · exact Or.inr ⟨x, List.mem_cons_of_mem s hx, hq⟩
        · rintro (hb | ⟨x, hx, hq⟩)
          · exact Or.inl hb
          · rcases List.mem_cons.mp hx with rfl | hx2
            · exact Or.inl (hq.2.trans hlt)
            · exact Or.inr ⟨x, hx2, hq⟩
    · rw [if_pos hok, ih]
      constructor
      · rintro (hb | ⟨x, hx, hq⟩)
        · exact Or.inl hb
        · exact Or.inr ⟨x, List.mem_cons_of_mem s hx, hq⟩
      · rintro (hb | ⟨x, hx, hq⟩)
        · exact Or.inl hb
        · rcases List.mem_cons.mp hx with rfl | hx2
          · exact absurd hq.1 hok
          · exact Or.inr ⟨x, hx2, hq⟩

theorem fuzzyLoop_snd_isSome (cl ct : List Char) (θ : ℚ)
    (starts : List Nat) (b : ℚ) (st : Option Nat) (hinv : θ ≤ b → st.isSome = true)
    (h : θ ≤ (fuzzyLoop cl ct starts (b, st)).1) :
    (fuzzyLoop cl ct starts (b, st)).2.isSome = true := by
  induction starts generalizing b st with
  | nil => exact hinv h
  | cons s rest ih =>
    unfold fuzzyLoop at h ⊢
    by_cases hok : ((ct.drop s).take cl.length).headD ' ' = cl.headD ' '
    · rw [if_neg (not_not_intro hok)] at h ⊢
      dsimp only at h ⊢
      by_cases hlt : b < simScore cl ((ct.drop s).take cl.length)
      · rw [if_pos hlt] at h ⊢
        exact ih _ _ (fun _ => rfl) h
      · rw [if_neg hlt] at h ⊢
        exact ih _ _ hinv h
    · rw [if_pos hok] at h ⊢
      exact ih _ _ hinv h

theorem fuzzyThreshold_pos (n : Nat) : 0 < fuzzyThreshold n := by
  unfold fuzzyThreshold
  split <;> norm_num

/-- C9: `_fuzzy_label_span` returns a span exactly when some window over the
compacted text whose first character matches the compacted label's first
character reaches the length-dependent similarity threshold — `0.66` for
compacted labels of length at most 3, `0.85` otherwise; with no qualifying
window it returns nothing. -/
theorem c9_fuzzy_threshold (text lbl : List Char) :
    (fuzzyLabelSpan text lbl).isSome = true ↔
      (compactL lbl ≠ [] ∧
        ∃ s, s + (compactL lbl).length ≤ (compactWithMap text).1.length ∧
          windowQualifies (compactL lbl) (compactWithMap text).1
            (fuzzyThreshold (compactL lbl).length) s) := by
  unfold fuzzyLabelSpan
  by_cases h0 : (compactL lbl).length = 0 ∨ (compactWithMap text).1.length < (compactL lbl).length
  · rw [if_pos h0]
    simp only [Option.isSome_none, Bool.false_eq_true, false_iff]
    rintro ⟨hne, s, hs, _⟩
    rcases h0 with h0 | h0
    · exact hne (List.eq_nil_of_length_eq_zero h0)
    · omega
  · rw [if_neg h0]
    dsimp only
    push_neg at h0
    obtain ⟨hL, hlen⟩ := h0
    have hmem : ∀ s : Nat,
        (s ∈ List.range ((compactWithMap text).1.length - (compactL lbl).length + 1)) ↔
          s + (compactL lbl).length ≤ (compactWithMap text).1.length := by
      intro s
      rw [List.mem_range]
      omega
    set θ := fuzzyThreshold (compactL lbl).length with hθdef
    have hθ : 0 < θ := fuzzyThreshold_pos _
    set loopOut := fuzzyLoop (compactL lbl) (compactWithMap text).1
      (List.range ((compactWithMap text).1.length - (compactL lbl).length + 1)) (0, none)
      with hloop
    constructor
    · intro hsome
      cases hbs : loopOut.2 with
      | none => rw [hbs] at hsome; simp at hsome
      | some bs =>
        rw [hbs] at hsome
        dsimp only at hsome
        by_cases hth : loopOut.1 < θ
        · rw [if_pos hth] at hsome
          simp at hsome
        · push_neg at hth
          have hiff := (fuzzyLoop_fst_iff (compactL lbl) (compactWithMap text).1 θ
            (List.range ((compactWithMap text).1.length - (compactL lbl).length + 1))
            0 none).mp (hloop ▸ hth)
          rcases hiff with hb | ⟨s, hsm, hq⟩
          · exact absurd hb (by simp [hθ.not_le])
          · exact ⟨fun h => hL (by simp [h]), s, (hmem s).mp hsm, hq⟩
    · rintro ⟨hne, s, hs, hq⟩
      have hex : θ ≤ loopOut.1 := by
        rw [hloop, fuzzyLoop_fst_iff]
        exact Or.inr ⟨s, (hmem s).mpr hs, hq⟩
      have hsome2 : loopOut.2.isSome = true := by
        rw [hloop]
        exact fuzzyLoop_snd_isSome _ _ θ _ 0 none (by simp [hθ.not_le]) (hloop ▸ hex)
      cases hbs : loopOut.2 with
      | none => rw [hbs] at hsome2; simp at hsome2
      | some bs =>
        dsimp only
        rw [if_neg (not_lt.mpr hex)]
        rfl

/-! ## Claim C5: weight range checks -/

/-- The warning `validate_weights` emits for a negative weight. -/
def negW (f : String) (v : ℚ) : Warning :=
  mkCandidate "negative_weight" (some [("field", .s f), ("value", .q v)]) (some .ERROR) none

/-- The warning `validate_weights` emits for a weight above the limit. -/
def excW (f : String) (v : ℚ) : Warning :=
  mkCandidate "weight_exceeds_limit" (some [("field", .s f), ("value", .q v)]) (some .WARN) none

theorem negW_key (f : String) (v : ℚ) :
    warningKey (negW f v) =
      ("VAL-CHK-004", some [("field", .s f), ("legacy_code", .s "negative_weight"),
        ("value", .q v)]) := rfl

theorem excW_key (f : String) (v : ℚ) :
    warningKey (excW f v) =
      ("VAL-CHK-005", some [("field", .s f), ("legacy_code", .s "weight_exceeds_limit"),
        ("value", .q v)]) := rfl

theorem negW_key_inj {f f' : String} {v v' : ℚ}
    (h : warningKey (negW f v) = warningKey (negW f' v')) : f = f' ∧ v = v' := by
  rw [negW_key, negW_key] at h
  simp only [Prod.mk.injEq, Option.some.injEq, List.cons.injEq, CtxVal.s.injEq,
    CtxVal.q.injEq, true_and, and_true] at h
  tauto

theorem excW_key_inj {f f' : String} {v v' : ℚ}
    (h : warningKey (excW f v) = warningKey (excW f' v')) : f = f' ∧ v = v' := by
  rw [excW_key, excW_key] at h
  simp only [Prod.mk.injEq, Option.some.injEq, List.cons.injEq, CtxVal.s.injEq,
    CtxVal.q.injEq, true_and, and_true] at h
  tauto

theorem negW_ne_excW_key (f f' : String) (v v' : ℚ) :
    warningKey (negW f v) ≠ warningKey (excW f' v') := by
  rw [negW_key, excW_key]
  intro h
  have h2 := congrArg Prod.fst h
  simp at h2

/-- The warnings one `validate_weights` iteration emits for a field. -/
def fieldWarnings (f : String) (val : Option ℚ) : List Warning :=
  match val with
  | none => []
  | some v =>
    (if v < MIN_WEIGHT_KG then [negW f v] else []) ++
      (if MAX_WEIGHT_KG < v then [excW f v] else [])

theorem weightChecks_eq (f : String) (val : Option ℚ) (ws : List Warning)
    (hn : ∀ w ∈ ws, ∀ u : ℚ, warningKey w ≠ warningKey (negW f u))
    (he : ∀ w ∈ ws, ∀ u : ℚ, warningKey w ≠ warningKey (excW f u)) :
    weightChecks f val ws = ws ++ fieldWarnings f val := by
  cases val with
  | none => simp [weightChecks, fieldWarnings]
  | some v =>
    unfold weightChecks fieldWarnings
    dsimp only
    by_cases h1 : v < MIN_WEIGHT_KG
    · rw [if_pos h1, if_pos h1,
        addWarning_of_no_key _ _ _ _ _ (fun w hw => hn w hw v)]
      by_cases h2 : MAX_WEIGHT_KG < v
      · rw [if_pos h2, if_pos h2, addWarning_of_no_key]
        · simp [negW, excW]
        · intro w hw
          rcases List.mem_append.mp hw with hw | hw
          · exact he w hw v
          · rcases List.mem_singleton.mp hw with rfl
            exact negW_ne_excW_key f f v v
      · rw [if_neg h2, if_neg h2]
        simp [negW]
    · rw [if_neg h1, if_neg h1]
      by_cases h2 : MAX_WEIGHT_KG < v
      · rw [if_pos h2, if_pos h2,
          addWarning_of_no_key _ _ _ _ _ (fun w hw => he w hw v)]
        simp [excW]
      · rw [if_neg h2, if_neg h2]
        simp

theorem mem_fieldWarnings (w : Warning) (f : String) (val : Option ℚ) :
    w ∈ fieldWarnings f val ↔
      ∃ v, val = some v ∧
        ((v < MIN_WEIGHT_KG ∧ w = negW f v) ∨ (MAX_WEIGHT_KG < v ∧ w = excW f v)) := by
  cases val with
  | none => simp [fieldWarnings]
  | some v =>
    unfold fieldWarnings
    dsimp only
    by_cases h1 : v < MIN_WEIGHT_KG <;> by_cases h2 : MAX_WEIGHT_KG < v
    all_goals simp [h1, h2]

/-- Keys of a field's warnings never collide with another field's candidate
keys, nor with the other code's keys for the same field. -/
theorem fieldWarnings_key_ne (w : Warning) (f g : String) (val : Option ℚ)
    (hfg : f ≠ g) (hw : w ∈ fieldWarnings f val) :
    (∀ u : ℚ, warningKey w ≠ warningKey (negW g u)) ∧
      (∀ u : ℚ, warningKey w ≠ warningKey (excW g u)) := by
  rcases (mem_fieldWarnings w f val).mp hw with ⟨v, _, ⟨_, rfl⟩ | ⟨_, rfl⟩⟩
  · exact ⟨fun u h => hfg (negW_key_inj h).1,
      fun u h => negW_ne_excW_key f g v u h⟩
  · exact ⟨fun u h => negW_ne_excW_key g f u v h.symm,
      fun u h => hfg (excW_key_inj h).1⟩

/-- `validate_weights` from an empty warning list is exactly the four fields'
range warnings in source order. -/
theorem validateWeights_nil (r : Rec) :
    validateWeights r [] =
      fieldWarnings "gross_weight_kg" r.gross_weight_kg ++
      fieldWarnings "tare_weight_kg" r.tare_weight_kg ++
      fieldWarnings "net_weight_kg" r.net_weight_kg ++
      fieldWarnings "deduction_weight_kg" r.deduction_weight_kg := by
  have key_ne : ∀ (f g : String), f ≠ g → ∀ (val : Option ℚ) (w : Warning),
      w ∈ fieldWarnings f val →
        (∀ u : ℚ, warningKey w ≠ warningKey (negW g u)) ∧
          (∀ u : ℚ, warningKey w ≠ warningKey (excW g u)) :=
    fun f g hfg val w hw => fieldWarnings_key_ne w f g val hfg hw
  unfold validateWeights
  rw [weightChecks_eq "gross_weight_kg" r.gross_weight_kg [] (by simp) (by simp),
    List.nil_append]
  rw [weightChecks_eq "tare_weight_kg" r.tare_weight_kg _
    (fun w hw u => (key_ne _ _ (by decide) _ w hw).1 u)
    (fun w hw u => (key_ne _ _ (by decide) _ w hw).2 u)]
  rw [weightChecks_eq "net_weight_kg" r.net_weight_kg _
    (fun w hw u => by
      rcases List.mem_append.mp hw with hw | hw
      · exact (key_ne _ _ (by decide) _ w hw).1 u
      · exact (key_ne _ _ (by decide) _ w hw).1 u)
    (fun w hw u => by
      rcases List.mem_append.mp hw with hw | hw
      · exact (key_ne _ _ (by decide) _ w hw).2 u
      · exact (key_ne _ _ (by decide) _ w hw).2 u)]
  rw [weightChecks_eq "deduction_weight_kg" r.deduction_weight_kg _
    (fun w hw u => by
      rcases List.mem_append.mp hw with hw | hw
      · rcases List.mem_append.mp hw with hw | hw
        · exact (key_ne _ _ (by decide) _ w hw).1 u
        · exact (key_ne _ _ (by decide) _ w hw).1 u
      · exact (key_ne _ _ (by decide) _ w hw).1 u)
    (fun w hw u => by
      rcases List.mem_append.mp hw with hw | hw
      · rcases List.mem_append.mp hw with hw | hw
        · exact (key_ne _ _ (by decide) _ w hw).2 u
        · exact (key_ne _ _ (by decide) _ w hw).2 u
      · exact (key_ne _ _ (by decide) _ w hw).2 u)]

theorem mem_validateWeights_negW (r : Rec) (f : String) (v : ℚ) :
    negW f v ∈ validateWeights r [] ↔
      ((f = "gross_weight_kg" ∧ r.gross_weight_kg = some v) ∨
       (f = "tare_weight_kg" ∧ r.tare_weight_kg = some v) ∨
       (f = "net_weight_kg" ∧ r.net_weight_kg = some v) ∨
       (f = "deduction_weight_kg" ∧ r.deduction_weight_kg = some v)) ∧
        v < MIN_WEIGHT_KG := by
  rw [validateWeights_nil]
  simp only [List.mem_append, mem_fieldWarnings]
  constructor
  · rintro (((⟨u, hu, hc⟩ | ⟨u, hu, hc⟩) | ⟨u, hu, hc⟩) | ⟨u, hu, hc⟩) <;>
      rcases hc with ⟨hlt, heq⟩ | ⟨hgt, heq⟩
    · obtain ⟨rfl, rfl⟩ := negW_key_inj (congrArg warningKey heq)
      exact ⟨Or.inl ⟨rfl, hu⟩, hlt⟩
    · exact absurd (congrArg warningKey heq) (negW_ne_excW_key _ _ _ _)
    · obtain ⟨rfl, rfl⟩ := negW_key_inj (congrArg warningKey heq)
      exact ⟨Or.inr (Or.inl ⟨rfl, hu⟩), hlt⟩
    · exact absurd (congrArg warningKey heq) (negW_ne_excW_key _ _ _ _)
    · obtain ⟨rfl, rfl⟩ := negW_key_inj (congrArg warningKey heq)
      exact ⟨Or.inr (Or.inr (Or.inl ⟨rfl, hu⟩)), hlt⟩
    · exact absurd (congrArg warningKey heq) (negW_ne_excW_key _ _ _ _)
    · obtain ⟨rfl, rfl⟩ := negW_key_inj (congrArg warningKey heq)
      exact ⟨Or.inr (Or.inr (Or.inr ⟨rfl, hu⟩)), hlt⟩
    · exact absurd (congrArg warningKey heq) (negW_ne_excW_key _ _ _ _)
  · rintro ⟨(⟨rfl, hval⟩ | ⟨rfl, hval⟩ | ⟨rfl, hval⟩ | ⟨rfl, hval⟩), hlt⟩
    · exact Or.inl (Or.inl (Or.inl ⟨v, hval, Or.inl ⟨hlt, rfl⟩⟩))
    · exact Or.inl (Or.inl (Or.inr ⟨v, hval, Or.inl ⟨hlt, rfl⟩⟩))
    · exact Or.inl (Or.inr ⟨v, hval, Or.inl ⟨hlt, rfl⟩⟩)
    · exact Or.inr ⟨v, hval, Or.inl ⟨hlt, rfl⟩⟩

theorem mem_validateWeights_excW (r : Rec) (f : String) (v : ℚ) :
    excW f v ∈ validateWeights r [] ↔
      ((f = "gross_weight_kg" ∧ r.gross_weight_kg = some v) ∨
       (f = "tare_weight_kg" ∧ r.tare_weight_kg = some v) ∨
       (f = "net_weight_kg" ∧ r.net_weight_kg = some v) ∨
       (f = "deduction_weight_kg" ∧ r.deduction_weight_kg = some v)) ∧
        MAX_WEIGHT_KG < v := by
  rw [validateWeights_nil]
  simp only [List.mem_append, mem_fieldWarnings]
  constructor
  · rintro (((⟨u, hu, hc⟩ | ⟨u, hu, hc⟩) | ⟨u, hu, hc⟩) | ⟨u, hu, hc⟩) <;>
      rcases hc with ⟨hlt, heq⟩ | ⟨hgt, heq⟩
    · exact absurd (congrArg warningKey heq).symm (negW_ne_excW_key _ _ _ _)
    · obtain ⟨rfl, rfl⟩ := excW_key_inj (congrArg warningKey heq)
      exact ⟨Or.inl ⟨rfl, hu⟩, hgt⟩
    · exact absurd (congrArg warningKey heq).symm (negW_ne_excW_key _ _ _ _)
    · obtain ⟨rfl, rfl⟩ := excW_key_inj (congrArg warningKey heq)
      exact ⟨Or.inr (Or.inl ⟨rfl, hu⟩), hgt⟩
    · exact absurd (congrArg warningKey heq).symm (negW_ne_excW_key _ _ _ _)
    · obtain ⟨rfl, rfl⟩ := excW_key_inj (congrArg warningKey heq)
      exact ⟨Or.inr (Or.inr (Or.inl ⟨rfl, hu⟩)), hgt⟩
    · exact absurd (congrArg warningKey heq).symm (negW_ne_excW_key _ _ _ _)
    · obtain ⟨rfl, rfl⟩ := excW_key_inj (congrArg warningKey heq)
      exact ⟨Or.inr (Or.inr (Or.inr ⟨rfl, hu⟩)), hgt⟩
  · rintro ⟨(⟨rfl, hval⟩ | ⟨rfl, hval⟩ | ⟨rfl, hval⟩ | ⟨rfl, hval⟩), hgt⟩
    · exact Or.inl (Or.inl (Or.inl ⟨v, hval, Or.inr ⟨hgt, rfl⟩⟩))
    · exact Or.inl (Or.inl (Or.inr ⟨v, hval, Or.inr ⟨hgt, rfl⟩⟩))
    · exact Or.inl (Or.inr ⟨v, hval, Or.inr ⟨hgt, rfl⟩⟩)
    · exact Or.inr ⟨v, hval, Or.inr ⟨hgt, rfl⟩⟩

/-- C5 (amended): for each of the four weight fields that is set, the
validator emits `negative_weight` (severity ERROR) exactly when the value is
below 0 kg and `weight_exceeds_limit` (severity WARN) exactly when it is above
100000 kg; the two checks are structurally independent, but — the
counterexample — no single value is both below 0 and above 100000, so the two
warnings never fire for the same field. -/
theorem c5_weight_range_checks (r : Rec) (v : ℚ) :
    ((negW "gross_weight_kg" v ∈ validateWeights r [] ↔
        r.gross_weight_kg = some v ∧ v < MIN_WEIGHT_KG) ∧
      (excW "gross_weight_kg" v ∈ validateWeights r [] ↔
        r.gross_weight_kg = some v ∧ MAX_WEIGHT_KG < v)) ∧
    ((negW "tare_weight_kg" v ∈ validateWeights r [] ↔
        r.tare_weight_kg = some v ∧ v < MIN_WEIGHT_KG) ∧
      (excW "tare_weight_kg" v ∈ validateWeights r [] ↔
        r.tare_weight_kg = some v ∧ MAX_WEIGHT_KG < v)) ∧
    ((negW "net_weight_kg" v ∈ validateWeights r [] ↔
        r.net_weight_kg = some v ∧ v < MIN_WEIGHT_KG) ∧
      (excW "net_weight_kg" v ∈ validateWeights r [] ↔
        r.net_weight_kg = some v ∧ MAX_WEIGHT_KG < v)) ∧
    ((negW "deduction_weight_kg" v ∈ validateWeights r [] ↔
        r.deduction_weight_kg = some v ∧ v < MIN_WEIGHT_KG) ∧
      (excW "deduction_weight_kg" v ∈ validateWeights r [] ↔
        r.deduction_weight_kg = some v ∧ MAX_WEIGHT_KG < v)) ∧
    (∀ f : String, (negW f v).severity = Severity.ERROR ∧
      (excW f v).severity = Severity.WARN) := by
  refine ⟨⟨?_, ?_⟩, ⟨?_, ?_⟩, ⟨?_, ?_⟩, ⟨?_, ?_⟩, fun f => ⟨rfl, rfl⟩⟩ <;>
    simp [mem_validateWeights_negW, mem_validateWeights_excW]

/-- C5 counterexample: the two range warnings can never fire for the same
field in one `validate_weights` run — a value would have to be below 0 kg and
above 100000 kg at once — refuting "both may fire for the same field". -/
theorem c5_counterexample :
    ¬ ∃ (r : Rec) (f : String) (v u : ℚ),
        negW f v ∈ validateWeights r [] ∧ excW f u ∈ validateWeights r [] := by
  rintro ⟨r, f, v, u, hn, he⟩
  obtain ⟨hnf, hnlt⟩ := (mem_validateWeights_negW r f v).mp hn
  obtain ⟨hef, hegt⟩ := (mem_validateWeights_excW r f u).mp he
  have hvu : v = u := by
    rcases hnf with ⟨rfl, h1⟩ | ⟨rfl, h1⟩ | ⟨rfl, h1⟩ | ⟨rfl, h1⟩ <;>
      rcases hef with ⟨hf2, h2⟩ | ⟨hf2, h2⟩ | ⟨hf2, h2⟩ | ⟨hf2, h2⟩ <;>
      first
        | (exact Option.some.inj (h1.symm.trans h2))
        | (exact absurd hf2 (by decide))
  rw [hvu] at hnlt
  have : MAX_WEIGHT_KG < MIN_WEIGHT_KG := lt_trans hegt hnlt
  norm_num [MAX_WEIGHT_KG, MIN_WEIGHT_KG] at this

/-! ## Claim C2: first-writer-wins invariant of the Record Assembler -/

/-- An optional string, once holding a truthy (non-empty) value, is kept. -/
def keepsStr (a b : Option String) : Prop := strTruthy a = true → b = a

/-- An optional weight, once holding a truthy (non-zero) value, is kept. -/
def keepsQ (a b : Option ℚ) : Prop := qTruthy a = true → b = a

/-- An optional GPS value, once present, is kept (a set GPS dict is always
truthy). -/
def keepsGps (a b : Option Gps) : Prop := a.isSome = true → b = a

/-- Truthy-monotonicity of every `ParsedRecord` field except `direction`:
whatever is populated with a truthy value in `r` is unchanged in `r'`. -/
structure RecMono (r r' : Rec) : Prop where
  wdate : keepsStr r.weigh_date r'.weigh_date
  wtin : keepsStr r.weigh_time_in r'.weigh_time_in
  wtout : keepsStr r.weigh_time_out r'.weigh_time_out
  serial : keepsStr r.serial_no r'.serial_no
  vehicle : keepsStr r.vehicle_no r'.vehicle_no
  partner : keepsStr r.partner_name r'.partner_name
  item : keepsStr r.item_name r'.item_name
  gross : keepsQ r.gross_weight_kg r'.gross_weight_kg
  tare : keepsQ r.tare_weight_kg r'.tare_weight_kg
  net : keepsQ r.net_weight_kg r'.net_weight_kg
  deduction : keepsQ r.deduction_weight_kg r'.deduction_weight_kg
  issuerK : keepsStr r.issuer r'.issuer
  tstamp : keepsStr r.timestamp r'.timestamp
  gpsK : keepsGps r.gps r'.gps
  dt : r'.doc_type = r.doc_type
  rawt : r'.raw_text = r.raw_text
  conf : r'.parse_confidence = r.parse_confidence
  warnF : r'.warnings = r.warnings

theorem recMono_refl (r : Rec) : RecMono r r :=
  ⟨fun _ => rfl, fun _ => rfl, fun _ => rfl, fun _ => rfl, fun _ => rfl, fun _ => rfl,
   fun _ => rfl, fun _ => rfl, fun _ => rfl, fun _ => rfl, fun _ => rfl, fun _ => rfl,
   fun _ => rfl, fun _ => rfl, rfl, rfl, rfl, rfl⟩

theorem recMono_of_eq {r r' : Rec} (h : r' = r) : RecMono r r' := h ▸ recMono_refl r

theorem keepsStr_trans {a b c : Option String} (h1 : keepsStr a b) (h2 : keepsStr b c) :
    keepsStr a c := fun ht => by rw [h2 (h1 ht ▸ ht), h1 ht]

theorem keepsQ_trans {a b c : Option ℚ} (h1 : keepsQ a b) (h2 : keepsQ b c) :
    keepsQ a c := fun ht => by rw [h2 (h1 ht ▸ ht), h1 ht]

theorem keepsGps_trans {a b c : Option Gps} (h1 : keepsGps a b) (h2 : keepsGps b c) :
    keepsGps a c := fun ht => by rw [h2 (h1 ht ▸ ht), h1 ht]

theorem recMono_trans {a b c : Rec} (h1 : RecMono a b) (h2 : RecMono b c) :
    RecMono a c :=
  ⟨keepsStr_trans h1.wdate h2.wdate, keepsStr_trans h1.wtin h2.wtin,
   keepsStr_trans h1.wtout h2.wtout, keepsStr_trans h1.serial h2.serial,
   keepsStr_trans h1.vehicle h2.vehicle, keepsStr_trans h1.partner h2.partner,
   keepsStr_trans h1.item h2.item, keepsQ_trans h1.gross h2.gross,
   keepsQ_trans h1.tare h2.tare, keepsQ_trans h1.net h2.net,
   keepsQ_trans h1.deduction h2.deduction, keepsStr_trans h1.issuerK h2.issuerK,
   keepsStr_trans h1.tstamp h2.tstamp, keepsGps_trans h1.gpsK h2.gpsK,
   h2.dt.trans h1.dt, h2.rawt.trans h1.rawt, h2.conf.trans h1.conf,
   h2.warnF.trans h1.warnF⟩

theorem keepsStr_pyOr (a b : Option String) : keepsStr a (pyOrStr a b) := by
  intro h
  unfold pyOrStr
  rw [if_pos h]

theorem keepsStr_of_not_truthy {a : Option String} (b : Option String)
    (h : ¬ strTruthy a = true) : keepsStr a b := fun ht => absurd ht h

theorem keepsQ_of_not_truthy {a : Option ℚ} (b : Option ℚ)
    (h : ¬ qTruthy a = true) : keepsQ a b := fun ht => absurd ht h

theorem keepsQ_of_none {a : Option ℚ} (b : Option ℚ) (h : a = none) : keepsQ a b := by
  intro ht
  rw [h] at ht
  simp at ht

theorem recMono_set_partner (r : Rec) (v : Option String)
    (h : keepsStr r.partner_name v) : RecMono r { r with partner_name := v } := by
  constructor <;> first | exact h | (intro _ ; rfl) | rfl

theorem recMono_set_wdate (r : Rec) (v : Option String)
    (h : keepsStr r.weigh_date v) : RecMono r { r with weigh_date := v } := by
  constructor <;> first | exact h | (intro _ ; rfl) | rfl

theorem recMono_set_serial (r : Rec) (v : Option String)
    (h : keepsStr r.serial_no v) : RecMono r { r with serial_no := v } := by
  constructor <;> first | exact h | (intro _ ; rfl) | rfl

theorem recMono_set_vehicle (r : Rec) (v : Option String)
    (h : keepsStr r.vehicle_no v) : RecMono r { r with vehicle_no := v } := by
  constructor <;> first | exact h | (intro _ ; rfl) | rfl

theorem recMono_set_item (r : Rec) (v : Option String)
    (h : keepsStr r.item_name v) : RecMono r { r with item_name := v } := by
  constructor <;> first | exact h | (intro _ ; rfl) | rfl

theorem recMono_set_tstamp (r : Rec) (v : Option String)
    (h : keepsStr r.timestamp v) : RecMono r { r with timestamp := v } := by
  constructor <;> first | exact h | (intro _ ; rfl) | rfl

theorem recMono_set_issuer (r : Rec) (v : Option String)
    (h : keepsStr r.issuer v) : RecMono r { r with issuer := v } := by
  constructor <;> first | exact h | (intro _ ; rfl) | rfl

theorem recMono_set_gps (r : Rec) (v : Option Gps)
    (h : keepsGps r.gps v) : RecMono r { r with gps := v } := by
  constructor <;> first | exact h | (intro _ ; rfl) | rfl

theorem recMono_set_direction (r : Rec) (v : Option String) :
    RecMono r { r with direction := v } := by
  constructor <;> first | (intro _ ; rfl) | rfl

theorem recMono_set_gross (r : Rec) (v : Option ℚ)
    (h : keepsQ r.gross_weight_kg v) : RecMono r { r with gross_weight_kg := v } := by
  constructor <;> first | exact h | (intro _ ; rfl) | rfl

theorem recMono_set_tare (r : Rec) (v : Option ℚ)
    (h : keepsQ r.tare_weight_kg v) : RecMono r { r with tare_weight_kg := v } := by
  constructor <;> first | exact h | (intro _ ; rfl) | rfl

theorem recMono_set_net (r : Rec) (v : Option ℚ)
    (h : keepsQ r.net_weight_kg v) : RecMono r { r with net_weight_kg := v } := by
  constructor <;> first | exact h | (intro _ ; rfl) | rfl

theorem recMono_set_deduction (r : Rec) (v : Option ℚ)
    (h : keepsQ r.deduction_weight_kg v) :
    RecMono r { r with deduction_weight_kg := v } := by
  constructor <;> first | exact h | (intro _ ; rfl) | rfl

theorem recMono_set_wtin (r : Rec) (v : Option String)
    (h : keepsStr r.weigh_time_in v) : RecMono r { r with weigh_time_in := v } := by
  constructor <;> first | exact h | (intro _ ; rfl) | rfl

theorem recMono_set_wtout (r : Rec) (v : Option String)
    (h : keepsStr r.weigh_time_out v) : RecMono r { r with weigh_time_out := v } := by
  constructor <;> first | exact h | (intro _ ; rfl) | rfl

theorem recMono_set_gross_wtin (r : Rec) (v : Option ℚ) (t : Option String)
    (hv : keepsQ r.gross_weight_kg v) (ht : keepsStr r.weigh_time_in t) :
    RecMono r { r with gross_weight_kg := v, weigh_time_in := t } := by
  constructor <;> first | exact hv | exact ht | (intro _ ; rfl) | rfl

theorem recMono_set_tare_wtout (r : Rec) (v : Option ℚ) (t : Option String)
    (hv : keepsQ r.tare_weight_kg v) (ht : keepsStr r.weigh_time_out t) :
    RecMono r { r with tare_weight_kg := v, weigh_time_out := t } := by
  constructor <;> first | exact hv | exact ht | (intro _ ; rfl) | rfl

theorem keepsStr_of_none {a : Option String} (b : Option String) (h : a = none) :
    keepsStr a b := by
  intro ht
  rw [h] at ht
  simp at ht

theorem keepsGps_of_none {a : Option Gps} (b : Option Gps) (h : a = none) :
    keepsGps a b := by
  intro ht
  rw [h] at ht
  simp at ht

/-- `RecMono` together with "the issuer field is untouched" — what every
assembly step (but not the final issuer resolution) guarantees. -/
def StepMono (r r' : Rec) : Prop := RecMono r r' ∧ r'.issuer = r.issuer

theorem stepMono_refl (r : Rec) : StepMono r r := ⟨recMono_refl r, rfl⟩

theorem stepMono_trans {a b c : Rec} (h1 : StepMono a b) (h2 : StepMono b c) :
    StepMono a c := ⟨recMono_trans h1.1 h2.1, h2.2.trans h1.2⟩

theorem stepMono_set_partner (r : Rec) (v : Option String)
    (h : keepsStr r.partner_name v) : StepMono r { r with partner_name := v } :=
  ⟨recMono_set_partner r v h, rfl⟩

theorem stepMono_set_wdate (r : Rec) (v : Option String)
    (h : keepsStr r.weigh_date v) : StepMono r { r with weigh_date := v } :=
  ⟨recMono_set_wdate r v h, rfl⟩

theorem stepMono_set_serial (r : Rec) (v : Option String)
    (h : keepsStr r.serial_no v) : StepMono r { r with serial_no := v } :=
  ⟨recMono_set_serial r v h, rfl⟩

theorem stepMono_set_vehicle (r : Rec) (v : Option String)
    (h : keepsStr r.vehicle_no v) : StepMono r { r with vehicle_no := v } :=
  ⟨recMono_set_vehicle r v h, rfl⟩

theorem stepMono_set_item (r : Rec) (v : Option String)
    (h : keepsStr r.item_name v) : StepMono r { r with item_name := v } :=
  ⟨recMono_set_item r v h, rfl⟩

theorem stepMono_set_tstamp (r : Rec) (v : Option String)
    (h : keepsStr r.timestamp v) : StepMono r { r with timestamp := v } :=
  ⟨recMono_set_tstamp r v h, rfl⟩

theorem stepMono_set_gps (r : Rec) (v : Option Gps)
    (h : keepsGps r.gps v) : StepMono r { r with gps := v } :=
  ⟨recMono_set_gps r v h, rfl⟩

theorem stepMono_set_direction (r : Rec) (v : Option String) :
    StepMono r { r with direction := v } :=
  ⟨recMono_set_direction r v, rfl⟩

theorem stepMono_set_gross (r : Rec) (v : Option ℚ)
    (h : keepsQ r.gross_weight_kg v) : StepMono r { r with gross_weight_kg := v } :=
  ⟨recMono_set_gross r v h, rfl⟩

theorem stepMono_set_tare (r : Rec) (v : Option ℚ)
    (h : keepsQ r.tare_weight_kg v) : StepMono r { r with tare_weight_kg := v } :=
  ⟨recMono_set_tare r v h, rfl⟩

theorem stepMono_set_net (r : Rec) (v : Option ℚ)
    (h : keepsQ r.net_weight_kg v) : StepMono r { r with net_weight_kg := v } :=
  ⟨recMono_set_net r v h, rfl⟩

theorem stepMono_set_deduction (r : Rec) (v : Option ℚ)
    (h : keepsQ r.deduction_weight_kg v) :
    StepMono r { r with deduction_weight_kg := v } :=
  ⟨recMono_set_deduction r v h, rfl⟩

theorem stepMono_set_wtin (r : Rec) (v : Option String)
    (h : keepsStr r.weigh_time_in v) : StepMono r { r with weigh_time_in := v } :=
  ⟨recMono_set_wtin r v h, rfl⟩

theorem stepMono_set_wtout (r : Rec) (v : Option String)
    (h : keepsStr r.weigh_time_out v) : StepMono r { r with weigh_time_out := v } :=
  ⟨recMono_set_wtout r v h, rfl⟩

theorem stepMono_set_gross_wtin (r : Rec) (v : Option ℚ) (t : Option String)
    (hv : keepsQ r.gross_weight_kg v) (ht : keepsStr r.weigh_time_in t) :
    StepMono r { r with gross_weight_kg := v, weigh_time_in := t } :=
  ⟨recMono_set_gross_wtin r v t hv ht, rfl⟩

theorem stepMono_set_tare_wtout (r : Rec) (v : Option ℚ) (t : Option String)
    (hv : keepsQ r.tare_weight_kg v) (ht : keepsStr r.weigh_time_out t) :
    StepMono r { r with tare_weight_kg := v, weigh_time_out := t } :=
  ⟨recMono_set_tare_wtout r v t hv ht, rfl⟩

theorem stepSalute_mono (line : LineInfo) (s : AState) :
    StepMono s.record (stepSalute line s).record := by
  unfold stepSalute
  split
  · next hp =>
    split
    · dsimp only
      split
      · exact stepMono_set_partner _ _ (keepsStr_of_not_truthy _ hp)
      · exact stepMono_refl _
    · exact stepMono_refl _
  · exact stepMono_refl _

theorem stepDate_mono (line : LineInfo) (s : AState) :
    StepMono s.record (stepDate line s).record := by
  unfold stepDate
  repeat' first
    | exact stepMono_refl _
    | exact stepMono_set_wdate _ _ (keepsStr_pyOr _ _)
    | exact stepMono_set_serial _ _ (keepsStr_pyOr _ _)
    | exact stepMono_trans (stepMono_set_wdate _ _ (keepsStr_pyOr _ _))
        (stepMono_set_serial _ _ (keepsStr_pyOr _ _))
    | split

set_option linter.unreachableTactic false in
set_option linter.unusedTactic false in
theorem stepSerial_mono (line : LineInfo) (s : AState) :
    StepMono s.record (stepSerial line s).record := by
  unfold stepSerial
  repeat' first
    | exact stepMono_refl _
    | exact stepMono_set_serial _ _ (keepsStr_of_not_truthy _ (by assumption))
    | split
    | dsimp only

theorem stepVehicle_mono (line : LineInfo) (s : AState) :
    StepMono s.record (stepVehicle line s).record := by
  unfold stepVehicle
  split
  rename_i vt ws hsel
  cases vt with
  | none => exact stepMono_refl _
  | some t =>
    dsimp only
    split
    · cases hdir : detectDirection t with
      | none =>
        dsimp only
        split
        · exact stepMono_set_vehicle _ _ (keepsStr_pyOr _ _)
        · exact stepMono_refl _
      | some d =>
        dsimp only
        split
        · exact stepMono_trans
            (stepMono_set_direction s.record (pyOrStr s.record.direction (some d)))
            (stepMono_set_vehicle _ _ (keepsStr_pyOr _ _))
        · exact stepMono_set_direction _ _
    · exact stepMono_refl _

set_option linter.unreachableTactic false in
set_option linter.unusedTactic false in
theorem stepPartner_mono (line : LineInfo) (s : AState) :
    StepMono s.record (stepPartner line s).record := by
  unfold stepPartner
  repeat' first
    | exact stepMono_refl _
    | exact stepMono_set_partner _ _ (keepsStr_pyOr _ _)
    | split
    | dsimp only

set_option linter.unreachableTactic false in
set_option linter.unusedTactic false in
theorem stepItemDir_mono (line : LineInfo) (s : AState) :
    StepMono s.record (stepItemDir line s).record := by
  unfold stepItemDir
  repeat' first
    | exact stepMono_refl _
    | exact stepMono_set_item _ _ (keepsStr_of_not_truthy _ (by assumption))
    | exact stepMono_set_direction _ _
    | exact stepMono_trans
        (stepMono_set_item _ _ (keepsStr_of_not_truthy _ (by assumption)))
        (stepMono_set_direction _ _)
    | split
    | dsimp only

set_option linter.unreachableTactic false in
set_option linter.unusedTactic false in
theorem stepItem_mono (line : LineInfo) (s : AState) :
    StepMono s.record (stepItem line s).record := by
  unfold stepItem
  repeat' first
    | exact stepMono_refl _
    | exact stepMono_set_item _ _ (keepsStr_of_not_truthy _ (by assumption))
    | split
    | dsimp only

set_option linter.unreachableTactic false in
set_option linter.unusedTactic false in
theorem stepDir_mono (line : LineInfo) (s : AState) :
    StepMono s.record (stepDir line s).record := by
  unfold stepDir
  repeat' first
    | exact stepMono_refl _
    | exact stepMono_set_direction _ _
    | split
    | dsimp only

set_option linter.unreachableTactic false in
set_option linter.unusedTactic false in
theorem stepDirFallback_mono (line : LineInfo) (s : AState) :
    StepMono s.record (stepDirFallback line s).record := by
  unfold stepDirFallback
  repeat' first
    | exact stepMono_refl _
    | exact stepMono_set_direction _ _
    | split
    | dsimp only

set_option linter.unreachableTactic false in
set_option linter.unusedTactic false in
theorem stepGross_mono (line : LineInfo) (s : AState) :
    StepMono s.record (stepGross line s).record := by
  unfold stepGross
  repeat' first
    | exact stepMono_refl _
    | exact stepMono_trans
        (stepMono_set_gross _ _ (keepsQ_of_none _ (by assumption)))
        (stepMono_set_wtin _ _ (keepsStr_of_none _ (by assumption)))
    | exact stepMono_set_gross _ _ (keepsQ_of_none _ (by assumption))
    | exact stepMono_set_wtin _ _ (keepsStr_of_none _ (by assumption))
    | split
    | dsimp only

set_option linter.unreachableTactic false in
set_option linter.unusedTactic false in
theorem stepTare_mono (line : LineInfo) (s : AState) :
    StepMono s.record (stepTare line s).record := by
  unfold stepTare
  repeat' first
    | exact stepMono_refl _
    | exact stepMono_trans
        (stepMono_set_tare _ _ (keepsQ_of_none _ (by assumption)))
        (stepMono_set_wtout _ _ (keepsStr_of_none _ (by assumption)))
    | exact stepMono_set_tare _ _ (keepsQ_of_none _ (by assumption))
    | exact stepMono_set_wtout _ _ (keepsStr_of_none _ (by assumption))
    | split
    | dsimp only

set_option linter.unreachableTactic false in
set_option linter.unusedTactic false in
theorem stepNet_mono (line : LineInfo) (s : AState) :
    StepMono s.record (stepNet line s).record := by
  unfold stepNet
  repeat' first
    | exact stepMono_refl _
    | exact stepMono_set_net _ _ (keepsQ_of_none _ (by assumption))
    | split
    | dsimp only

set_option linter.unreachableTactic false in
set_option linter.unusedTactic false in
theorem stepDeduction_mono (line : LineInfo) (s : AState) :
    StepMono s.record (stepDeduction line s).record := by
  unfold stepDeduction
  repeat' first
    | exact stepMono_refl _
    | exact stepMono_set_deduction _ _ (keepsQ_of_none _ (by assumption))
    | split
    | dsimp only

set_option linter.unreachableTactic false in
set_option linter.unusedTactic false in
theorem stepCandidate_mono (line : LineInfo) (idx : Nat) (s : AState) :
    StepMono s.record (stepCandidate line idx s).record := by
  unfold stepCandidate
  repeat' first
    | exact stepMono_refl _
    | split
    | dsimp only

theorem stepTsGps_mono (line : LineInfo) (s : AState) :
    StepMono s.record (stepTsGps line s).record := by
  unfold stepTsGps
  split
  · next hts =>
    split
    · rename_i t hext
      dsimp only
      split
      · next hgps =>
        split
        · exact stepMono_trans
            (stepMono_set_tstamp s.record (some (asStr t)) (keepsStr_of_not_truthy _ hts))
            (stepMono_set_gps _ _ (keepsGps_of_none _ hgps))
        · exact stepMono_set_tstamp _ _ (keepsStr_of_not_truthy _ hts)
      · exact stepMono_set_tstamp _ _ (keepsStr_of_not_truthy _ hts)
    · dsimp only
      split
      · next hgps =>
        split
        · exact stepMono_set_gps _ _ (keepsGps_of_none _ hgps)
        · exact stepMono_refl _
      · exact stepMono_refl _
  · dsimp only
    split
    · next hgps =>
      split
      · exact stepMono_set_gps _ _ (keepsGps_of_none _ hgps)
      · exact stepMono_refl _
    · exact stepMono_refl _

theorem processLine_mono (s : AState) (line : LineInfo) (idx : Nat) :
    StepMono s.record (processLine s line idx).record := by
  unfold processLine
  exact stepMono_trans (stepSalute_mono _ _) (stepMono_trans (stepDate_mono _ _)
    (stepMono_trans (stepSerial_mono _ _) (stepMono_trans (stepVehicle_mono _ _)
      (stepMono_trans (stepPartner_mono _ _) (stepMono_trans (stepItemDir_mono _ _)
        (stepMono_trans (stepItem_mono _ _) (stepMono_trans (stepDir_mono _ _)
          (stepMono_trans (stepDirFallback_mono _ _)
            (stepMono_trans (stepGross_mono _ _) (stepMono_trans (stepTare_mono _ _)
              (stepMono_trans (stepNet_mono _ _)
                (stepMono_trans (stepDeduction_mono _ _)
                  (stepMono_trans (stepCandidate_mono _ _ _)
                    (stepTsGps_mono _ _))))))))))))))

set_option linter.unreachableTactic false in
set_option linter.unusedTactic false in
theorem postPass_mono (s : AState) : StepMono s.record (postPass s).record := by
  unfold postPass
  repeat' first
    | exact stepMono_refl _
    | exact stepMono_trans
        (stepMono_set_gross_wtin _ _ _ (keepsQ_of_not_truthy _ (by assumption))
          (keepsStr_pyOr _ _))
        (stepMono_set_tare_wtout _ _ _ (keepsQ_of_not_truthy _ (by assumption))
          (keepsStr_pyOr _ _))
    | exact stepMono_set_gross_wtin _ _ _ (keepsQ_of_not_truthy _ (by assumption))
        (keepsStr_pyOr _ _)
    | exact stepMono_set_tare_wtout _ _ _ (keepsQ_of_not_truthy _ (by assumption))
        (keepsStr_pyOr _ _)
    | split
    | dsimp only

theorem assembleLines_mono (lines : List LineInfo) :
    ∀ (s : AState) (i : Nat), StepMono s.record (assembleLines s i lines).record := by
  induction lines with
  | nil => intro s i; exact stepMono_refl _
  | cons l ls ih =>
    intro s i
    exact stepMono_trans (processLine_mono s l i) (ih (processLine s l i) (i + 1))

theorem assembleLines_append (xs ys : List LineInfo) :
    ∀ (s : AState) (i : Nat),
      assembleLines s i (xs ++ ys) = assembleLines (assembleLines s i xs) (i + xs.length) ys := by
  induction xs with
  | nil => intro s i; simp [assembleLines]
  | cons l ls ih =>
    intro s i
    simp only [List.cons_append, assembleLines, List.length_cons, List.append_eq]
    rw [ih]
    congr 1
    omega

/-- Mid-assembly gross weight on the two-line input that refutes the
strict first-writer-wins reading of the deferred post-pass. -/
def c2Payload : Payload :=
  { pages := [{ lines := ["총중량 : 0 kg", "01:00 500 kg"], text := none }], text := none }

/-- **C2** (amended): first writer wins up to Python truthiness.  Along
`parse_preprocessed`, from any mid-assembly state (the state after any prefix of
the filtered lines), every later rule, later line, the deferred-candidate
post-pass and the issuer resolution preserve every already *truthy* field of the
record — every field except `direction`, which the §4.4 policy lets later lines
refine.  A field holding a falsy value (`0.0` weight, empty string) does NOT
enjoy this protection: the post-pass guard `if not record.gross_weight_kg`
(parser.py:355) overwrites a stored gross weight of `0.0` (see the
counterexample). -/
theorem c2_first_writer_wins (pre : PreResult) (pfx sfx : List LineInfo)
    (h : pre.line_infos = pfx ++ sfx) :
    RecMono (assembleLines (initAState pre) 0 pfx).record (parsePre pre).1 := by
  simp only [parsePre]
  rw [h, assembleLines_append]
  have h1 : StepMono (assembleLines (initAState pre) 0 pfx).record
      (assembleLines (assembleLines (initAState pre) 0 pfx) (0 + pfx.length) sfx).record :=
    assembleLines_mono sfx (assembleLines (initAState pre) 0 pfx) (0 + pfx.length)
  have h2 : StepMono
      (assembleLines (assembleLines (initAState pre) 0 pfx) (0 + pfx.length) sfx).record
      (postPass (assembleLines (assembleLines (initAState pre) 0 pfx)
        (0 + pfx.length) sfx)).record :=
    postPass_mono _
  have hmid0 : (assembleLines (initAState pre) 0 pfx).record.issuer = none :=
    (assembleLines_mono pfx (initAState pre) 0).2
  have hpp0 : (postPass (assembleLines (assembleLines (initAState pre) 0 pfx)
      (0 + pfx.length) sfx)).record.issuer = none :=
    (h2.2.trans h1.2).trans hmid0
  exact recMono_trans h1.1 (recMono_trans h2.1
    (recMono_set_issuer _ _ (keepsStr_of_none _ hpp0)))

/-- Witness for C2: the theorem applied to the concrete preprocessed two-line
payload split after its first line. -/
theorem c2_first_writer_wins_witness :
    (preprocessPayload c2Payload []).line_infos =
        (preprocessPayload c2Payload []).line_infos.take 1 ++
          (preprocessPayload c2Payload []).line_infos.drop 1 ∧
    RecMono (assembleLines (initAState (preprocessPayload c2Payload [])) 0
        ((preprocessPayload c2Payload []).line_infos.take 1)).record
      (parsePre (preprocessPayload c2Payload [])).1 :=
  ⟨(List.take_append_drop 1 _).symm,
   c2_first_writer_wins (preprocessPayload c2Payload [])
     ((preprocessPayload c2Payload []).line_infos.take 1)
     ((preprocessPayload c2Payload []).line_infos.drop 1)
     (List.take_append_drop 1 _).symm⟩

/-- Counterexample to C2 as stated: after the first line "총중량 : 0 kg" the
assembler has set `gross_weight_kg` to `0`, yet the post-pass overwrites it
with the deferred candidate weight `500` from the second line, because the
guard at parser.py:355 tests Python truthiness rather than is-None. -/
theorem c2_counterexample :
    (assembleLines (initAState (preprocessPayload c2Payload [])) 0
        ((preprocessPayload c2Payload []).line_infos.take 1)).record.gross_weight_kg
      = some 0 ∧
    (parsePre (preprocessPayload c2Payload [])).1.gross_weight_kg = some 500 := by
  constructor
  · rfl
  · rfl

/-- Closed form of the post-pass on a state with at least two deferred
candidates and non-truthy gross and tare weights. -/
theorem postPass_cons2 (r : Rec) (dsrc : String) (ws : List Warning)
    (t1 t2 : List Char) (w1 w2 : ℚ) (i1 i2 : Nat)
    (rest : List (List Char × ℚ × Nat))
    (hg : qTruthy r.gross_weight_kg = false)
    (ht : qTruthy r.tare_weight_kg = false) :
    postPass ⟨r, (t1, w1, i1) :: (t2, w2, i2) :: rest, dsrc, ws⟩ =
      ⟨{ r with
          gross_weight_kg := some w1,
          weigh_time_in := pyOrStr r.weigh_time_in (some (asStr t1)),
          tare_weight_kg := some w2,
          weigh_time_out := pyOrStr r.weigh_time_out (some (asStr t2)) },
        (t1, w1, i1) :: (t2, w2, i2) :: rest, dsrc,
        addWarning (addWarning ws "gross_inferred_from_time_weight" none none none)
          "tare_inferred_from_time_weight" none none none⟩ := by
  have hg' : ¬ qTruthy r.gross_weight_kg := by simp [hg]
  have ht' : ¬ qTruthy r.tare_weight_kg := by simp [ht]
  simp only [postPass]
  rw [if_pos (by simp : ((t1, w1, i1) :: (t2, w2, i2) :: rest : List _) ≠ [])]
  rw [if_pos hg']
  dsimp only [List.head?]
  rw [if_pos (by simp : 1 < ((t1, w1, i1) :: (t2, w2, i2) :: rest : List _).length)]
  rw [if_pos ht']
  rfl

theorem finalizeRecord_net (r : Rec) (ws : List Warning) :
    (finalizeRecord r ws).net_weight_kg = (netInferred r).net_weight_kg := rfl

theorem hasWarning_finalWarnings_netInf (r : Rec) (ws : List Warning)
    (h : netInferCond r) :
    hasWarning (finalWarnings r ws) "net_inferred_from_gross_tare" = true := by
  simp only [finalWarnings]
  rw [if_pos h]
  have hbase : hasWarning
      (addWarning (validateTimeOrder r (validateWeights r ws))
        "net_inferred_from_gross_tare" none none none)
      "net_inferred_from_gross_tare" = true :=
    hasWarning_addWarning_self _ _ _ _ _
  split
  · split
    · exact hasWarning_mono _ _ _ _ _ _ hbase
    · exact hbase
  · exact hbase

/-- **C3**: deferred time/weight pairing.  From any assembly state holding
exactly three deferred candidates and no gross/tare/net weight or in/out time,
the post-pass makes the first candidate the gross weight and `weigh_time_in`
(with the `gross_inferred_from_time_weight` warning), the second the tare
weight and `weigh_time_out` (with the `tare_inferred_from_time_weight`
warning); finalization infers net = gross − tare with the
`net_inferred_from_gross_tare` warning (the weights being non-zero), and the
third candidate is never consumed: record and warnings are the same as with
only the first two candidates. -/
theorem c3_deferred_pairing (s : AState) (lines : List LineInfo)
    (t1 t2 t3 : List Char) (w1 w2 w3 : ℚ) (i1 i2 i3 : Nat)
    (hc : s.cands = [(t1, w1, i1), (t2, w2, i2), (t3, w3, i3)])
    (hg : s.record.gross_weight_kg = none)
    (ht : s.record.tare_weight_kg = none)
    (hn : s.record.net_weight_kg = none)
    (hwi : s.record.weigh_time_in = none)
    (hwo : s.record.weigh_time_out = none)
    (hw1 : w1 ≠ 0) (hw2 : w2 ≠ 0) :
    ((postPass s).record.gross_weight_kg = some w1 ∧
      (postPass s).record.weigh_time_in = some (asStr t1) ∧
      hasWarning (postPass s).warnings "gross_inferred_from_time_weight" = true) ∧
    ((postPass s).record.tare_weight_kg = some w2 ∧
      (postPass s).record.weigh_time_out = some (asStr t2) ∧
      hasWarning (postPass s).warnings "tare_inferred_from_time_weight" = true) ∧
    ((finalizeRecord (issuerStep lines (postPass s)).record
        (issuerStep lines (postPass s)).warnings).net_weight_kg = some (w1 - w2) ∧
      hasWarning (finalizeRecord (issuerStep lines (postPass s)).record
        (issuerStep lines (postPass s)).warnings).warnings
          "net_inferred_from_gross_tare" = true) ∧
    ((postPass s).record =
        (postPass { s with cands := [(t1, w1, i1), (t2, w2, i2)] }).record ∧
      (postPass s).warnings =
        (postPass { s with cands := [(t1, w1, i1), (t2, w2, i2)] }).warnings) := by
  obtain ⟨r, cands, dsrc, ws⟩ := s
  simp only at hc hg ht hn hwi hwo
  subst hc
  have hg' : qTruthy r.gross_weight_kg = false := by rw [hg]; rfl
  have ht' : qTruthy r.tare_weight_kg = false := by rw [ht]; rfl
  rw [postPass_cons2 r dsrc ws t1 t2 w1 w2 i1 i2 [(t3, w3, i3)] hg' ht',
    postPass_cons2 r dsrc ws t1 t2 w1 w2 i1 i2 [] hg' ht']
  have hwin : pyOrStr r.weigh_time_in (some (asStr t1)) = some (asStr t1) := by
    rw [hwi]; rfl
  have hwout : pyOrStr r.weigh_time_out (some (asStr t2)) = some (asStr t2) := by
    rw [hwo]; rfl
  have hcond : netInferCond { r with
      gross_weight_kg := some w1,
      weigh_time_in := pyOrStr r.weigh_time_in (some (asStr t1)),
      tare_weight_kg := some w2,
      weigh_time_out := pyOrStr r.weigh_time_out (some (asStr t2)),
      issuer := pyOrStr (findIssuer lines) r.issuer } := by
    refine ⟨?_, ?_, ?_⟩
    · simp only [hn]; rfl
    · simp [qTruthy, hw1]
    · simp [qTruthy, hw2]
  refine ⟨⟨rfl, hwin, ?_⟩, ⟨rfl, hwout, ?_⟩, ⟨?_, ?_⟩, rfl, rfl⟩
  · exact hasWarning_mono _ _ _ _ _ _ (hasWarning_addWarning_self _ _ _ _ _)
  · exact hasWarning_addWarning_self _ _ _ _ _
  · rw [finalizeRecord_net]
    simp only [issuerStep]
    rw [show netInferred { r with
        gross_weight_kg := some w1,
        weigh_time_in := pyOrStr r.weigh_time_in (some (asStr t1)),
        tare_weight_kg := some w2,
        weigh_time_out := pyOrStr r.weigh_time_out (some (asStr t2)),
        issuer := pyOrStr (findIssuer lines) r.issuer } =
      { r with
        gross_weight_kg := some w1,
        weigh_time_in := pyOrStr r.weigh_time_in (some (asStr t1)),
        tare_weight_kg := some w2,
        weigh_time_out := pyOrStr r.weigh_time_out (some (asStr t2)),
        issuer := pyOrStr (findIssuer lines) r.issuer,
        net_weight_kg := some ((some w1).getD 0 - (some w2).getD 0) } from by
      simp only [netInferred]; rw [if_pos hcond]]
    rfl
  · rw [finalizeRecord_warnings]
    simp only [issuerStep]
    exact hasWarning_finalWarnings_netInf _ _ hcond

/-- The repository's three-pair test input (`test_multiple_time_weight_pairs`). -/
def c3Payload : Payload :=
  { pages := [{ lines := ["01:00 1,000 kg", "01:10 800 kg", "01:20 900 kg"], text := none }],
    text := none }

/-- The assembly state reached on `c3Payload` right before the post-pass. -/
def c3State : AState :=
  assembleLines (initAState (preprocessPayload c3Payload [])) 0
    (preprocessPayload c3Payload []).line_infos

/-- Witness for C3: the deferred-pairing theorem applied to the state the
assembler reaches on the concrete three-pair payload. -/
theorem c3_deferred_pairing_witness :
    (c3State.cands =
        [("01:00".data, 1000, 0), ("01:10".data, 800, 1), ("01:20".data, 900, 2)] ∧
      c3State.record.gross_weight_kg = none ∧
      c3State.record.tare_weight_kg = none ∧
      c3State.record.net_weight_kg = none ∧
      c3State.record.weigh_time_in = none ∧
      c3State.record.weigh_time_out = none ∧
      (1000 : ℚ) ≠ 0 ∧ (800 : ℚ) ≠ 0) ∧
    (((postPass c3State).record.gross_weight_kg = some 1000 ∧
      (postPass c3State).record.weigh_time_in = some (asStr "01:00".data) ∧
      hasWarning (postPass c3State).warnings "gross_inferred_from_time_weight" = true) ∧
    ((postPass c3State).record.tare_weight_kg = some 800 ∧
      (postPass c3State).record.weigh_time_out = some (asStr "01:10".data) ∧
      hasWarning (postPass c3State).warnings "tare_inferred_from_time_weight" = true) ∧
    ((finalizeRecord
        (issuerStep (preprocessPayload c3Payload []).line_infos (postPass c3State)).record
        (issuerStep (preprocessPayload c3Payload []).line_infos
          (postPass c3State)).warnings).net_weight_kg = some (1000 - 800) ∧
      hasWarning (finalizeRecord
        (issuerStep (preprocessPayload c3Payload []).line_infos (postPass c3State)).record
        (issuerStep (preprocessPayload c3Payload []).line_infos
          (postPass c3State)).warnings).warnings "net_inferred_from_gross_tare" = true) ∧
    ((postPass c3State).record =
        (postPass { c3State with
          cands := [("01:00".data, 1000, 0), ("01:10".data, 800, 1)] }).record ∧
      (postPass c3State).warnings =
        (postPass { c3State with
          cands := [("01:00".data, 1000, 0), ("01:10".data, 800, 1)] }).warnings)) :=
  ⟨⟨by decide, rfl, rfl, rfl, rfl, rfl, by norm_num, by norm_num⟩,
   c3_deferred_pairing c3State (preprocessPayload c3Payload []).line_infos
     "01:00".data "01:10".data "01:20".data 1000 800 900 0 1 2
     (by decide) rfl rfl rfl rfl rfl (by norm_num) (by norm_num)⟩

/-! ## Non-negativity of extracted and assembled weights -/

theorem extractWeight_nonneg (l : List Char) (w : ℚ) (h : extractWeight l = some w) :
    0 ≤ w := by
  unfold extractWeight at h
  cases hm : searchPos weightMatchAt (stripTimeTokens l) with
  | none => rw [hm] at h; cases h
  | some p =>
    rw [hm] at h
    obtain ⟨grp, n⟩ := p
    simp only at h
    injection h with h
    rw [← h]
    exact Nat.cast_nonneg _

theorem allWeightsF_nonneg : ∀ (fuel : Nat) (l : List Char) (w : ℚ),
    w ∈ allWeightsF fuel l → 0 ≤ w := by
  intro fuel
  induction fuel with
  | zero => intro l w h; simp [allWeightsF] at h
  | succ n ih =>
    intro l w h
    match l with
    | [] => simp [allWeightsF] at h
    | c :: ts =>
      simp only [allWeightsF] at h
      split at h
      · split at h
        · rcases List.mem_cons.mp h with h' | h'
          · rw [h']; exact Nat.cast_nonneg _
          · exact ih _ _ h'
        · exact ih _ _ h
      · exact ih _ _ h

theorem extractAllWeights_nonneg (l : List Char) (w : ℚ)
    (h : w ∈ extractAllWeights l) : 0 ≤ w :=
  allWeightsF_nonneg _ _ _ h

/-- All four optional weight fields of a record hold non-negative values. -/
def WNonneg (r : Rec) : Prop :=
  (∀ v, r.gross_weight_kg = some v → 0 ≤ v) ∧
  (∀ v, r.tare_weight_kg = some v → 0 ≤ v) ∧
  (∀ v, r.net_weight_kg = some v → 0 ≤ v) ∧
  (∀ v, r.deduction_weight_kg = some v → 0 ≤ v)

/-- Weight fields and deferred-candidate weights are all non-negative. -/
def SNonneg (s : AState) : Prop :=
  WNonneg s.record ∧ ∀ c ∈ s.cands, 0 ≤ c.2.1

theorem nonneg_some {w : ℚ} (hw : 0 ≤ w) : ∀ v : ℚ, some w = some v → 0 ≤ v :=
  fun _ hv => (Option.some.inj hv) ▸ hw

theorem nonneg_none : ∀ v : ℚ, (none : Option ℚ) = some v → 0 ≤ v :=
  fun _ hv => nomatch hv

set_option linter.unreachableTactic false in
set_option linter.unusedTactic false in
theorem stepSalute_nonneg (line : LineInfo) (s : AState) (h : SNonneg s) :
    SNonneg (stepSalute line s) := by
  unfold stepSalute
  repeat' first
    | exact h
    | split
    | dsimp only

set_option linter.unreachableTactic false in
set_option linter.unusedTactic false in
theorem stepDate_nonneg (line : LineInfo) (s : AState) (h : SNonneg s) :
    SNonneg (stepDate line s) := by
  unfold stepDate
  repeat' first
    | exact h
    | split
    | dsimp only

set_option linter.unreachableTactic false in
set_option linter.unusedTactic false in
theorem stepSerial_nonneg (line : LineInfo) (s : AState) (h : SNonneg s) :
    SNonneg (stepSerial line s) := by
  unfold stepSerial
  repeat' first
    | exact h
    | split
    | dsimp only

set_option linter.unreachableTactic false in
set_option linter.unusedTactic false in
theorem stepVehicle_nonneg (line : LineInfo) (s : AState) (h : SNonneg s) :
    SNonneg (stepVehicle line s) := by
  unfold stepVehicle
  repeat' first
    | exact h
    | split
    | dsimp only

set_option linter.unreachableTactic false in
set_option linter.unusedTactic false in
theorem stepPartner_nonneg (line : LineInfo) (s : AState) (h : SNonneg s) :
    SNonneg (stepPartner line s) := by
  unfold stepPartner
  repeat' first
    | exact h
    | split
    | dsimp only

set_option linter.unreachableTactic false in
set_option linter.unusedTactic false in
theorem stepItemDir_nonneg (line : LineInfo) (s : AState) (h : SNonneg s) :
    SNonneg (stepItemDir line s) := by
  unfold stepItemDir
  repeat' first
    | exact h
    | split
    | dsimp only

set_option linter.unreachableTactic false in
set_option linter.unusedTactic false in
theorem stepItem_nonneg (line : LineInfo) (s : AState) (h : SNonneg s) :
    SNonneg (stepItem line s) := by
  unfold stepItem
  repeat' first
    | exact h
    | split
    | dsimp only

set_option linter.unreachableTactic false in
set_option linter.unusedTactic false in
theorem stepDir_nonneg (line : LineInfo) (s : AState) (h : SNonneg s) :
    SNonneg (stepDir line s) := by
  unfold stepDir
  repeat' first
    | exact h
    | split
    | dsimp only

set_option linter.unreachableTactic false in
set_option linter.unusedTactic false in
theorem stepDirFallback_nonneg (line : LineInfo) (s : AState) (h : SNonneg s) :
    SNonneg (stepDirFallback line s) := by
  unfold stepDirFallback
  repeat' first
    | exact h
    | split
    | dsimp only

set_option linter.unreachableTactic false in
set_option linter.unusedTactic false in
theorem stepTsGps_nonneg (line : LineInfo) (s : AState) (h : SNonneg s) :
    SNonneg (stepTsGps line s) := by
  unfold stepTsGps
  repeat' first
    | exact h
    | split
    | dsimp only

set_option linter.unreachableTactic false in
set_option linter.unusedTactic false in
theorem stepGross_nonneg (line : LineInfo) (s : AState) (h : SNonneg s) :
    SNonneg (stepGross line s) := by
  unfold stepGross
  repeat' first
    | exact h
    | exact ⟨⟨nonneg_some (extractWeight_nonneg _ _ (by assumption)),
        h.1.2.1, h.1.2.2.1, h.1.2.2.2⟩, h.2⟩
    | split
    | dsimp only

set_option linter.unreachableTactic false in
set_option linter.unusedTactic false in
theorem stepTare_nonneg (line : LineInfo) (s : AState) (h : SNonneg s) :
    SNonneg (stepTare line s) := by
  unfold stepTare
  repeat' first
    | exact h
    | exact ⟨⟨h.1.1, nonneg_some (extractWeight_nonneg _ _ (by assumption)),
        h.1.2.2.1, h.1.2.2.2⟩, h.2⟩
    | split
    | dsimp only

set_option linter.unreachableTactic false in
set_option linter.unusedTactic false in
theorem stepNet_nonneg (line : LineInfo) (s : AState) (h : SNonneg s) :
    SNonneg (stepNet line s) := by
  unfold stepNet
  repeat' first
    | exact h
    | exact ⟨⟨h.1.1, h.1.2.1, nonneg_some (extractWeight_nonneg _ _ (by assumption)),
        h.1.2.2.2⟩, h.2⟩
    | split
    | dsimp only

set_option linter.unreachableTactic false in
set_option linter.unusedTactic false in
theorem stepDeduction_nonneg (line : LineInfo) (s : AState) (h : SNonneg s) :
    SNonneg (stepDeduction line s) := by
  unfold stepDeduction
  repeat' first
    | exact h
    | exact ⟨⟨h.1.1, h.1.2.1, h.1.2.2.1,
        nonneg_some (extractWeight_nonneg _ _ (by assumption))⟩, h.2⟩
    | split
    | dsimp only

set_option linter.unreachableTactic false in
set_option linter.unusedTactic false in
theorem stepCandidate_nonneg (line : LineInfo) (idx : Nat) (s : AState) (h : SNonneg s) :
    SNonneg (stepCandidate line idx s) := by
  unfold stepCandidate
  repeat' first
    | exact h
    | exact ⟨h.1, fun c hc => by
        rcases List.mem_append.mp hc with h' | h'
        · exact h.2 c h'
        · rw [List.mem_singleton.mp h']
          exact extractWeight_nonneg _ _ (by assumption)⟩
    | split
    | dsimp only

theorem processLine_nonneg (s : AState) (line : LineInfo) (idx : Nat) (h : SNonneg s) :
    SNonneg (processLine s line idx) := by
  unfold processLine
  exact stepTsGps_nonneg _ _ (stepCandidate_nonneg _ _ _ (stepDeduction_nonneg _ _
    (stepNet_nonneg _ _ (stepTare_nonneg _ _ (stepGross_nonneg _ _
      (stepDirFallback_nonneg _ _ (stepDir_nonneg _ _ (stepItem_nonneg _ _
        (stepItemDir_nonneg _ _ (stepPartner_nonneg _ _ (stepVehicle_nonneg _ _
          (stepSerial_nonneg _ _ (stepDate_nonneg _ _
            (stepSalute_nonneg _ _ h))))))))))))))

theorem assembleLines_nonneg (lines : List LineInfo) :
    ∀ (s : AState) (i : Nat), SNonneg s → SNonneg (assembleLines s i lines) := by
  induction lines with
  | nil => intro s i h; exact h
  | cons l ls ih =>
    intro s i h
    exact ih (processLine s l i) (i + 1) (processLine_nonneg s l i h)

theorem le_of_head_cand {cs : List (List Char × ℚ × Nat)} {tv : List Char} {wv : ℚ}
    {iv : Nat} (he : cs.head? = some (tv, wv, iv)) (h2 : ∀ c ∈ cs, 0 ≤ c.2.1) :
    0 ≤ wv := by
  cases cs with
  | nil => cases he
  | cons a t =>
    injection he with he
    have := h2 a (List.mem_cons_self a t)
    rw [he] at this
    exact this

theorem le_of_get1_cand {cs : List (List Char × ℚ × Nat)} {tv : List Char} {wv : ℚ}
    {iv : Nat} (he : cs.get? 1 = some (tv, wv, iv)) (h2 : ∀ c ∈ cs, 0 ≤ c.2.1) :
    0 ≤ wv := by
  match cs, he with
  | a :: b :: t, he =>
    simp only [List.get?] at he
    injection he with he
    have := h2 b (List.mem_cons_of_mem a (List.mem_cons_self b t))
    rw [he] at this
    exact this

set_option linter.unreachableTactic false in
set_option linter.unusedTactic false in
theorem postPass_nonneg (s : AState) (h : SNonneg s) : SNonneg (postPass s) := by
  unfold postPass
  repeat' first
    | exact h
    | exact ⟨⟨nonneg_some (le_of_head_cand (by assumption) h.2),
        h.1.2.1, h.1.2.2.1, h.1.2.2.2⟩, h.2⟩
    | exact ⟨⟨h.1.1, nonneg_some (le_of_get1_cand (by assumption) h.2),
        h.1.2.2.1, h.1.2.2.2⟩, h.2⟩
    | exact ⟨⟨nonneg_some (le_of_head_cand (by assumption) h.2),
        nonneg_some (le_of_get1_cand (by assumption) h.2),
        h.1.2.2.1, h.1.2.2.2⟩, h.2⟩
    | split
    | dsimp only

theorem issuerStep_nonneg (lines : List LineInfo) (s : AState) (h : SNonneg s) :
    SNonneg (issuerStep lines s) := h

theorem initAState_nonneg (pre : PreResult) : SNonneg (initAState pre) := by
  unfold SNonneg WNonneg
  refine ⟨⟨?_, ?_, ?_, ?_⟩, ?_⟩
  · exact fun _ hv => nomatch hv
  · exact fun _ hv => nomatch hv
  · exact fun _ hv => nomatch hv
  · exact fun _ hv => nomatch hv
  · simp [initAState]

theorem parsePre_wnonneg (pre : PreResult) : WNonneg (parsePre pre).1 :=
  (issuerStep_nonneg pre.line_infos _
    (postPass_nonneg _
      (assembleLines_nonneg pre.line_infos (initAState pre) 0
        (initAState_nonneg pre)))).1

theorem hasWarning_addWarning_of_ne (ws : List Warning) (c c' : String)
    (ctx : Option Ctx) (sv : Option Severity) (mg : Option String)
    (hcode : (mkCandidate c' ctx sv mg).code ≠ standardizeCode c)
    (hleg : ctxGet ((mkCandidate c' ctx sv mg).context.getD []) "legacy_code" ≠
      some (CtxVal.s c)) :
    hasWarning (addWarning ws c' ctx sv mg) c = hasWarning ws c := by
  rcases addWarning_eq_or ws c' ctx sv mg with he | he <;> rw [he]
  unfold hasWarning
  simp only [List.any_append, List.any_cons, List.any_nil, Bool.or_false]
  have hfalse : (decide ((mkCandidate c' ctx sv mg).code = standardizeCode c ∨
      ctxTruthy (mkCandidate c' ctx sv mg).context = true ∧
        ctxGet ((mkCandidate c' ctx sv mg).context.getD []) "legacy_code" =
          some (CtxVal.s c))) = false := by
    simp only [decide_eq_false_iff_not]
    rintro (h1 | ⟨h2, h3⟩)
    · exact hcode h1
    · exact hleg h3
  rw [hfalse, Bool.or_false]

theorem weightChecks_noNeg (f : String) (value : Option ℚ) (ws : List Warning)
    (hv : ∀ v, value = some v → 0 ≤ v) :
    hasWarning (weightChecks f value ws) "negative_weight" =
      hasWarning ws "negative_weight" := by
  cases value with
  | none => rfl
  | some v =>
    have h0 : ¬ v < MIN_WEIGHT_KG := not_lt.mpr (hv v rfl)
    simp only [weightChecks]
    rw [if_neg h0]
    split
    · exact hasWarning_addWarning_of_ne ws "negative_weight" "weight_exceeds_limit" _ _ _
        (show ("VAL-CHK-005" : String) ≠ standardizeCode "negative_weight" by decide)
        (show (some (CtxVal.s "weight_exceeds_limit") : Option CtxVal) ≠
          some (CtxVal.s "negative_weight") by decide)
    · rfl

theorem validateTimeOrder_noNeg (r : Rec) (ws : List Warning) :
    hasWarning (validateTimeOrder r ws) "negative_weight" =
      hasWarning ws "negative_weight" := by
  unfold validateTimeOrder
  split
  · dsimp only
    split
    · exact hasWarning_addWarning_of_ne _ _ _ _ _ _
        (show ("VAL-CHK-003" : String) ≠ standardizeCode "negative_weight" by decide)
        (show (some (CtxVal.s "time_order_reversed") : Option CtxVal) ≠
          some (CtxVal.s "negative_weight") by decide)
    · rfl
  · rfl

theorem finalWarnings_noNeg (r : Rec) (ws : List Warning) (h : WNonneg r) :
    hasWarning (finalWarnings r ws) "negative_weight" =
      hasWarning ws "negative_weight" := by
  have hbase : hasWarning (validateTimeOrder r (validateWeights r ws)) "negative_weight" =
      hasWarning ws "negative_weight" := by
    rw [validateTimeOrder_noNeg]
    unfold validateWeights
    rw [weightChecks_noNeg _ _ _ h.2.2.2, weightChecks_noNeg _ _ _ h.2.2.1,
      weightChecks_noNeg _ _ _ h.2.1, weightChecks_noNeg _ _ _ h.1]
  have hni : ∀ ws' : List Warning,
      hasWarning (addWarning ws' "net_inferred_from_gross_tare" none none none)
        "negative_weight" = hasWarning ws' "negative_weight" :=
    fun ws' => hasWarning_addWarning_of_ne ws' _ _ _ _ _ (by decide) (by decide)
  have hnm : ∀ ws' : List Warning,
      hasWarning (addWarning ws' "net_mismatch" none none none)
        "negative_weight" = hasWarning ws' "negative_weight" :=
    fun ws' => hasWarning_addWarning_of_ne ws' _ _ _ _ _ (by decide) (by decide)
  simp only [finalWarnings]
  split
  · split
    · rw [hnm]
      split
      · rw [hni, hbase]
      · rw [hbase]
    · split
      · rw [hni, hbase]
      · rw [hbase]
  · split
    · rw [hni, hbase]
    · rw [hbase]

/-- A record with extreme but non-negative weights, for the C10 witness. -/
def c10Rec : Rec := { gross_weight_kg := some 200000, tare_weight_kg := some 0 }

/-- The extreme-weights test payload (`test_extreme_weight_values`). -/
def c10Payload : Payload :=
  { pages := [{ lines := ["총중량: 200,000 kg", "공차중량: 0 kg"], text := none }],
    text := none }

/-- **C10**: `extract_weight` returns only non-negative values, as does
`extract_all_weights`; consequently every weight field the assembler populates
from a line — for any input payload — is at least 0 (as is every deferred
candidate weight), and on such a record `finalize_record`'s validation never
adds the `negative_weight` warning at all: `validate_weights` runs before net
inference, so even a negative inferred net (gross − tare) is never checked,
making the claim's "only for a computed net weight" allowance an upper bound
that is never reached. -/
theorem c10_nonneg_weights :
    (∀ (l : List Char) (w : ℚ), extractWeight l = some w → 0 ≤ w) ∧
    (∀ (l : List Char), ∀ w ∈ extractAllWeights l, 0 ≤ w) ∧
    (∀ p : Payload, WNonneg (parsePre (preprocessPayload p [])).1) ∧
    (∀ (r : Rec) (ws : List Warning), WNonneg r →
      hasWarning (finalWarnings r ws) "negative_weight" =
        hasWarning ws "negative_weight") :=
  ⟨extractWeight_nonneg, fun l w h => extractAllWeights_nonneg l w h,
   fun p => parsePre_wnonneg (preprocessPayload p []),
   finalWarnings_noNeg⟩

/-- Witness for C10: the theorem applied to a concrete line, the concrete
extreme-weights payload, and a concrete extreme-weights record. -/
theorem c10_nonneg_weights_witness :
    (extractWeight "500 kg".data = some 500 ∧ (0 : ℚ) ≤ 500) ∧
    WNonneg (parsePre (preprocessPayload c10Payload [])).1 ∧
    (WNonneg c10Rec ∧
      hasWarning (finalWarnings c10Rec []) "negative_weight" =
        hasWarning ([] : List Warning) "negative_weight") := by
  have hw0 : WNonneg c10Rec := by
    unfold WNonneg
    exact ⟨nonneg_some (by norm_num), nonneg_some (by norm_num), nonneg_none, nonneg_none⟩
  exact ⟨⟨by decide, c10_nonneg_weights.1 "500 kg".data 500 (by decide)⟩,
    c10_nonneg_weights.2.2.1 c10Payload,
    hw0, c10_nonneg_weights.2.2.2 c10Rec [] hw0⟩

end Recokr
